import Mathlib

/-!
# Ethernet (W6100) client connection life cycle

A shallow embedding of `src/EthernetClient2.cpp` and of `EthernetClass2::maintain`
from `src/Ethernet2.cpp`.

* The headers (`Ethernet.h`, `utility/w5100.h`, `Dhcp2.h`, `IP6Address.h`) are not part of
  the sources, so every constant they define is a field of `Header`, which the functions
  below take as their first argument; `w6100` holds sample values for concrete runs.
* The chip, the allocator and the clock are collaborators.  Their answers are given by an
  `Env` (the answer to the k-th call of each kind) and the calls the code issues are
  recorded, oldest first, in the `trace` of a `World`.
* The two polling loops (`while (1)` in `connect`, `do ... while` in `stop`) take a fuel
  argument and return `none` when it runs out.
-/

namespace Ethernet

/-- Modelled from the spec: the class `IP6Address` (`IP6Address.h` is not part of the
sources).  The spec's address is a 128-bit value; it is kept as its 16 bytes in the order of
the byte arrays the sources pass around (`remoteIParray[16]`, `raw_address()`), and
`operator==` is equality of these bytes. -/
abbrev IP6Address := List Nat

/-- Modelled from the spec: the constructor `IP6Address(const uint8_t *address)` of the
missing `IP6Address.cpp`; the address is the 128-bit value held by the 16 bytes, so the bytes
are taken over in their order. -/
def IP6Address.ofBytes (address : List Nat) : IP6Address := address

/-- Status codes `SnSR::...` of `utility/w5100.h` that the client compares against. -/
structure SnSRCodes where
  CLOSED : Nat
  LISTEN : Nat
  ESTABLISHED : Nat
  FIN_WAIT : Nat
  CLOSE_WAIT : Nat

/-- Mode codes `SnMR::...` of `utility/w5100.h` that the client passes on. -/
structure SnMRCodes where
  TCP6 : Nat

/-- Everything the missing headers define and the embedded code uses. -/
structure Header where
  MAX_SOCK_NUM : Nat
  SnSR : SnSRCodes
  SnMR : SnMRCodes
  W6100_SnMR_TCPD : Nat
  W6100_SnMR_TCP4 : Nat
  W6100_SnESR_TCP6 : Nat
  DHCP_CHECK_NONE : Int
  DHCP_CHECK_RENEW_OK : Int
  DHCP_CHECK_REBIND_OK : Int
  /-- The constructor `IP6Address(uint32_t)`. -/
  ofUInt32 : Nat → IP6Address
  /-- The conversion of an `IP6Address` to `uint8_t` (used by `IPVis` when unbound). -/
  toUInt8 : IP6Address → Nat

/-- The status codes are pairwise different (they are one enumeration). -/
def SnSRCodes.Distinct (s : SnSRCodes) : Prop :=
  [s.CLOSED, s.LISTEN, s.ESTABLISHED, s.FIN_WAIT, s.CLOSE_WAIT].Nodup

instance (s : SnSRCodes) : Decidable s.Distinct := by
  unfold SnSRCodes.Distinct; infer_instance

/-- The fields of `EthernetClient2`. -/
structure EthernetClient2 where
  sockindex : Nat
  _timeout : Nat
deriving DecidableEq, Repr

/-- Calls to the socket layer (`Ethernet2.socket...`). -/
inductive Call where
  | socketStatus (s : Nat)
  | socketDisconnect (s : Nat)
  | socketBegin (protocol port : Nat)
  | socketConnect (s : Nat) (ip : IP6Address) (port : Nat)
  | socketClose (s : Nat)
  | socketRecvAvailable (s : Nat)
  /-- The lookup `dns.getHostByName(host, remote_addr)` of the DNS client. -/
  | getHostByName (host : String)
deriving DecidableEq, Repr

/-- Answers of the collaborators: the k-th call of each kind gets the k-th answer. -/
structure Env where
  /-- Value returned by the k-th `socketStatus`. -/
  status : Nat → Nat
  /-- Time in milliseconds at the k-th `millis()`; the call returns it modulo 2^32. -/
  clock : Nat → Nat
  /-- Value returned by the k-th `socketBegin`. -/
  alloc : Nat → Nat
  /-- Value returned by the k-th `socketRecvAvailable`. -/
  recvAvailable : Nat → Nat
  /-- Address found by `getHostByName`, `none` when the lookup fails (returns 0). -/
  hostByName : String → Option IP6Address

/-- How many answers of each kind were consumed, the calls issued and the `delay(1)` count. -/
structure World where
  polls : Nat
  ticks : Nat
  begins : Nat
  recvs : Nat
  delays : Nat
  trace : List Call
deriving DecidableEq, Repr

/-- `Ethernet2.socketStatus(s)`. -/
def socketStatus (env : Env) (s : Nat) (w : World) : Nat × World :=
  (env.status w.polls, { w with polls := w.polls + 1, trace := w.trace ++ [Call.socketStatus s] })

/-- `Ethernet2.socketDisconnect(s)`. -/
def socketDisconnect (s : Nat) (w : World) : World :=
  { w with trace := w.trace ++ [Call.socketDisconnect s] }

/-- `Ethernet2.socketBegin(protocol, port)`. -/
def socketBegin (env : Env) (protocol port : Nat) (w : World) : Nat × World :=
  (env.alloc w.begins,
    { w with begins := w.begins + 1, trace := w.trace ++ [Call.socketBegin protocol port] })

/-- `Ethernet2.socketConnect(s, rawIPAddress(ip), port)`. -/
def socketConnect (s : Nat) (ip : IP6Address) (port : Nat) (w : World) : World :=
  { w with trace := w.trace ++ [Call.socketConnect s ip port] }

/-- `Ethernet2.socketClose(s)`. -/
def socketClose (s : Nat) (w : World) : World :=
  { w with trace := w.trace ++ [Call.socketClose s] }

/-- `Ethernet2.socketRecvAvailable(s)`. -/
def socketRecvAvailable (env : Env) (s : Nat) (w : World) : Nat × World :=
  (env.recvAvailable w.recvs,
    { w with recvs := w.recvs + 1, trace := w.trace ++ [Call.socketRecvAvailable s] })

/-- `millis()`: a 32-bit reading of the clock. -/
def millis (env : Env) (w : World) : Nat × World :=
  (env.clock w.ticks % 4294967296, { w with ticks := w.ticks + 1 })

/-- `delay(1)`. -/
def delay (w : World) : World :=
  { w with delays := w.delays + 1 }

/-- `now - start` on `uint32_t`. -/
def elapsed (now start : Nat) : Nat :=
  (now + 4294967296 - start % 4294967296) % 4294967296

/-- How a pass through a polling loop ends: `return v` or `break`. -/
inductive LoopExit where
  | ret (v : Nat)
  | brk
deriving DecidableEq, Repr

/-- The loop of `connect`, lines 59-66. -/
def connectLoop (hdr : Header) (env : Env) (c : EthernetClient2) (start : Nat) :
    Nat → World → Option (LoopExit × World)
  | 0, _ => none
  | fuel + 1, w =>
    let (stat, w) := socketStatus env c.sockindex w
    if stat = hdr.SnSR.ESTABLISHED then some (LoopExit.ret 1, w)
    else if stat = hdr.SnSR.CLOSE_WAIT then some (LoopExit.ret 1, w)
    else if stat = hdr.SnSR.CLOSED then some (LoopExit.ret 0, w)
    else
      let (now, w) := millis env w
      if elapsed now start > c._timeout then some (LoopExit.brk, w)
      else connectLoop hdr env c start fuel (delay w)

/-- Lines 44-49 of `connect` (and 31-36 of the host name overload): let go of a handle the
client still holds. -/
def releaseOld (hdr : Header) (env : Env) (c : EthernetClient2) (w : World) :
    EthernetClient2 × World :=
  if c.sockindex < hdr.MAX_SOCK_NUM then
    let (stat, w) := socketStatus env c.sockindex w
    let w := if stat ≠ hdr.SnSR.CLOSED then socketDisconnect c.sockindex w else w
    ({ c with sockindex := hdr.MAX_SOCK_NUM }, w)
  else (c, w)

/-- `EthernetClient2::connect(IP6Address ip, uint16_t port)`: the returned `int`, the client
and the world afterwards; `none` when the fuel of the polling loop runs out. -/
def connect (hdr : Header) (env : Env) (fuel : Nat) (c : EthernetClient2) (w : World)
    (ip : IP6Address) (port : Nat) : Option (Nat × EthernetClient2 × World) :=
  let (c, w) := releaseOld hdr env c w
  if ip = hdr.ofUInt32 0 ∨ ip = hdr.ofUInt32 4294967295 then some (0, c, w)
  else
    let (s, w) := socketBegin env hdr.SnMR.TCP6 0 w
    let c := { c with sockindex := s }
    if c.sockindex ≥ hdr.MAX_SOCK_NUM then some (0, c, w)
    else
      let w := socketConnect c.sockindex ip port w
      let (start, w) := millis env w
      match connectLoop hdr env c start fuel w with
      | none => none
      | some (LoopExit.ret v, w) => some (v, c, w)
      | some (LoopExit.brk, w) =>
        let w := socketClose c.sockindex w
        some (0, { c with sockindex := hdr.MAX_SOCK_NUM }, w)

/-- `EthernetClient2::connect(const char * host, uint16_t port)`.  Of the DNS client only
the lookup is recorded (`dns.begin` just stores the server address). -/
def connectHost (hdr : Header) (env : Env) (fuel : Nat) (c : EthernetClient2) (w : World)
    (host : String) (port : Nat) : Option (Nat × EthernetClient2 × World) :=
  let (c, w) := releaseOld hdr env c w
  let w := { w with trace := w.trace ++ [Call.getHostByName host] }
  match env.hostByName host with
  | none => some (0, c, w)
  | some remote_addr => connect hdr env fuel c w remote_addr port

/-- `EthernetClient2::available()`. -/
def available (hdr : Header) (env : Env) (c : EthernetClient2) (w : World) : Nat × World :=
  if c.sockindex ≥ hdr.MAX_SOCK_NUM then (0, w)
  else socketRecvAvailable env c.sockindex w

/-- `EthernetClient2::connected()`; `available()` is only called when the tests before it
in the `||` chain fail and the status is `CLOSE_WAIT`. -/
def connected (hdr : Header) (env : Env) (c : EthernetClient2) (w : World) : Nat × World :=
  if c.sockindex ≥ hdr.MAX_SOCK_NUM then (0, w)
  else
    let (s, w) := socketStatus env c.sockindex w
    if s = hdr.SnSR.LISTEN ∨ s = hdr.SnSR.CLOSED ∨ s = hdr.SnSR.FIN_WAIT then (0, w)
    else if s = hdr.SnSR.CLOSE_WAIT then
      let (n, w) := available hdr env c w
      if n = 0 then (0, w) else (1, w)
    else (1, w)

/-- The `do ... while` loop of `stop`, lines 141-147: `true` when it left through the
`return` (status `CLOSED` seen), `false` when the loop condition failed. -/
def stopLoop (hdr : Header) (env : Env) (c : EthernetClient2) (start : Nat) :
    Nat → World → Option (Bool × World)
  | 0, _ => none
  | fuel + 1, w =>
    let (stat, w) := socketStatus env c.sockindex w
    if stat = hdr.SnSR.CLOSED then some (true, w)
    else
      let w := delay w
      let (now, w) := millis env w
      if elapsed now start < c._timeout then stopLoop hdr env c start fuel w
      else some (false, w)

/-- `EthernetClient2::stop()`. -/
def stop (hdr : Header) (env : Env) (fuel : Nat) (c : EthernetClient2) (w : World) :
    Option (EthernetClient2 × World) :=
  if c.sockindex ≥ hdr.MAX_SOCK_NUM then some (c, w)
  else
    let w := socketDisconnect c.sockindex w
    let (start, w) := millis env w
    match stopLoop hdr env c start fuel w with
    | none => none
    | some (true, w) => some ({ c with sockindex := hdr.MAX_SOCK_NUM }, w)
    | some (false, w) =>
      let w := socketClose c.sockindex w
      some ({ c with sockindex := hdr.MAX_SOCK_NUM }, w)

/-- Contents of the per-socket registers of the chip read by `remoteIP` and `IPVis`. -/
structure W5100 where
  SnMR : Nat → Nat
  SnESR : Nat → Nat
  /-- The 4-byte destination register. -/
  SnDIPR : Nat → List Nat
  /-- The 16-byte IPv6 destination register. -/
  SnDIP6R : Nat → List Nat

/-- Register reads issued through `W5100.read...`. -/
inductive RegRead where
  | readSnMR (s : Nat)
  | readSnESR (s : Nat)
  | readSnDIPR (s : Nat)
  | readSnDIP6R (s : Nat)
deriving DecidableEq, Repr

/-- A register read into a buffer: `src` overwrites the first bytes of `buf`. -/
def readInto (src buf : List Nat) : List Nat :=
  src ++ buf.drop src.length

/-- The call `memset(&buf[off], val, len)`. -/
def memset (buf : List Nat) (off val len : Nat) : List Nat :=
  buf.take off ++ List.replicate len val ++ buf.drop (off + len)

/-- `EthernetClient2::remoteIP()`: the address returned, `IP6Address(remoteIParray)`, and
the registers read, in order.  `uninit` is what the local array `remoteIParray[16]` holds
before it is written. -/
def remoteIP (hdr : Header) (chip : W5100) (uninit : List Nat) (c : EthernetClient2) :
    IP6Address × List RegRead :=
  if c.sockindex ≥ hdr.MAX_SOCK_NUM then (hdr.ofUInt32 0, [])
  else
    let remoteIParray := uninit
    if chip.SnMR c.sockindex = hdr.W6100_SnMR_TCPD then
      if chip.SnESR c.sockindex &&& hdr.W6100_SnESR_TCP6 = hdr.W6100_SnESR_TCP6 then
        let remoteIParray := readInto (chip.SnDIP6R c.sockindex) remoteIParray
        (IP6Address.ofBytes remoteIParray,
          [RegRead.readSnMR c.sockindex, RegRead.readSnESR c.sockindex,
            RegRead.readSnDIP6R c.sockindex])
      else
        let remoteIParray := readInto (chip.SnDIPR c.sockindex) remoteIParray
        let remoteIParray := memset remoteIParray 4 0 (16 - 4)
        (IP6Address.ofBytes remoteIParray,
          [RegRead.readSnMR c.sockindex, RegRead.readSnESR c.sockindex,
            RegRead.readSnDIPR c.sockindex])
    else if chip.SnMR c.sockindex = hdr.W6100_SnMR_TCP4 then
      let remoteIParray := readInto (chip.SnDIPR c.sockindex) remoteIParray
      let remoteIParray := memset remoteIParray 4 0 (16 - 4)
      (IP6Address.ofBytes remoteIParray,
        [RegRead.readSnMR c.sockindex, RegRead.readSnMR c.sockindex,
          RegRead.readSnDIPR c.sockindex])
    else
      let remoteIParray := readInto (chip.SnDIP6R c.sockindex) remoteIParray
      (IP6Address.ofBytes remoteIParray,
        [RegRead.readSnMR c.sockindex, RegRead.readSnMR c.sockindex,
          RegRead.readSnDIP6R c.sockindex])

/-- `EthernetClient2::IPVis()`: the family tag returned and the registers read, in order. -/
def IPVis (hdr : Header) (chip : W5100) (c : EthernetClient2) : Nat × List RegRead :=
  if c.sockindex ≥ hdr.MAX_SOCK_NUM then (hdr.toUInt8 (hdr.ofUInt32 0), [])
  else
    if chip.SnMR c.sockindex = hdr.W6100_SnMR_TCPD then
      if chip.SnESR c.sockindex &&& hdr.W6100_SnESR_TCP6 = hdr.W6100_SnESR_TCP6 then
        (6, [RegRead.readSnMR c.sockindex, RegRead.readSnESR c.sockindex])
      else
        (4, [RegRead.readSnMR c.sockindex, RegRead.readSnESR c.sockindex])
    else if chip.SnMR c.sockindex = hdr.W6100_SnMR_TCP4 then
      (4, [RegRead.readSnMR c.sockindex, RegRead.readSnMR c.sockindex])
    else
      (6, [RegRead.readSnMR c.sockindex, RegRead.readSnMR c.sockindex])

/-- The field of `DhcpClass2` that `maintain` reads. -/
structure DhcpClass2 where
  use_sateful : Nat
deriving DecidableEq, Repr

/-- What `EthernetClass2` does to its collaborators: the lease check, the serial port and
the chip's address registers. -/
inductive EthCall where
  | checkLease
  | serialPrint
  | serialPrintln
  | getGlobalunicastAddress
  | setIPAddress (ip : IP6Address)
  | setGatewayIp (ip : IP6Address)
  | setSubnetMask (ip : IP6Address)
  | setGlobalunicastAddress (ip : IP6Address)
deriving DecidableEq, Repr

/-- Calls that write an address register of the chip. -/
def EthCall.isAddressWrite : EthCall → Bool
  | EthCall.setIPAddress _ => true
  | EthCall.setGatewayIp _ => true
  | EthCall.setSubnetMask _ => true
  | EthCall.setGlobalunicastAddress _ => true
  | _ => false

/-- `EthernetClass2::setLocalIP(ip)`. -/
def setLocalIP (ip : IP6Address) (log : List EthCall) : List EthCall :=
  log ++ [EthCall.setIPAddress ip]

/-- `EthernetClass2::setGlobalunicastAddress(gua)`. -/
def setGlobalunicastAddress (gua : IP6Address) (log : List EthCall) : List EthCall :=
  log ++ [EthCall.setGlobalunicastAddress gua]

/-- `EthernetClass2::maintain()`: `_dhcp2` is `none` for `NULL`, `lease` is what
`_dhcp2->checkLease()` answers when it is called.  Returns `rc` and the calls made. The
register writes of lines 238-243 are inside `#if 0` and are not compiled. -/
def maintain (hdr : Header) (_dhcp2 : Option DhcpClass2) (lease : Int)
    (log : List EthCall) : Int × List EthCall :=
  let rc := hdr.DHCP_CHECK_NONE
  match _dhcp2 with
  | none => (rc, log)
  | some d =>
    if d.use_sateful = 1 then
      let rc := lease
      let log := log ++ [EthCall.checkLease]
      if rc = hdr.DHCP_CHECK_NONE then (rc, log)
      else if rc = hdr.DHCP_CHECK_RENEW_OK then (rc, log)
      else if rc = hdr.DHCP_CHECK_REBIND_OK then
        (rc, log ++ [EthCall.serialPrint, EthCall.getGlobalunicastAddress,
          EthCall.serialPrintln])
      else (rc, log)
    else (rc, log)

/-- Header values of the W6100 build (register codes of the W6100 data sheet), used to
evaluate the definitions on concrete inputs. -/
def w6100 : Header where
  MAX_SOCK_NUM := 8
  SnSR := { CLOSED := 0, LISTEN := 20, ESTABLISHED := 23, FIN_WAIT := 24, CLOSE_WAIT := 28 }
  SnMR := { TCP6 := 9 }
  W6100_SnMR_TCPD := 13
  W6100_SnMR_TCP4 := 1
  W6100_SnESR_TCP6 := 4
  DHCP_CHECK_NONE := 0
  DHCP_CHECK_RENEW_OK := 2
  DHCP_CHECK_REBIND_OK := 4
  ofUInt32 := fun v =>
    [v % 256, v / 256 % 256, v / 65536 % 256, v / 16777216 % 256] ++ List.replicate 12 0
  toUInt8 := fun ip => ip.headD 0

/-- A world in which nothing has happened yet. -/
def World.init : World :=
  { polls := 0, ticks := 0, begins := 0, recvs := 0, delays := 0, trace := [] }

/-- `SYN_SENT` on the W6100: a status that keeps `connect` polling. -/
def SYNSENT : Nat := 21

/-- A peer that never answers: the status stays `SYN_SENT`, socket 2 gets allocated, one
millisecond passes between two readings of the clock. -/
def silentPeer : Env :=
  { status := fun _ => SYNSENT, clock := fun k => k, alloc := fun _ => 2,
    recvAvailable := fun _ => 0, hostByName := fun _ => none }

/-- A peer whose answer shows up at the `k`-th status poll as status `st`. -/
def peerAnswering (k st : Nat) : Env :=
  { status := fun i => if i = k then st else SYNSENT, clock := fun i => i,
    alloc := fun _ => 2, recvAvailable := fun _ => 0, hostByName := fun _ => none }

/-- The address 2001:db8::1. -/
def sampleAddr : IP6Address := [32, 1, 13, 184, 0, 0, 0, 0, 0, 0, 0, 0, 0, 0, 0, 1]

/-- A client that holds no socket, with a timeout of `T` ms. -/
def freshClient (T : Nat) : EthernetClient2 := { sockindex := 8, _timeout := T }

/-- Status answered to the `i`-th status poll issued from world `w` on. -/
def pollStatus (env : Env) (w : World) (i : Nat) : Nat :=
  env.status (w.polls + i)

/-- Elapsed time computed in pass `i` of a polling loop whose `start = millis()` is
taken in world `w`: the reading of pass `i` minus `start`, on `uint32_t`. -/
def elapsedAt (env : Env) (w : World) (i : Nat) : Nat :=
  elapsed (env.clock (w.ticks + 1 + i) % 4294967296) (env.clock w.ticks % 4294967296)

/-- The status keeps the loop of `connect` polling. -/
def Pending (hdr : Header) (stat : Nat) : Prop :=
  stat ≠ hdr.SnSR.ESTABLISHED ∧ stat ≠ hdr.SnSR.CLOSE_WAIT ∧ stat ≠ hdr.SnSR.CLOSED

instance (hdr : Header) (stat : Nat) : Decidable (Pending hdr stat) := by
  unfold Pending; infer_instance

/-- World at the first pass of the loop of `connect` when `socketBegin` is called in `w`
and answers `h`: after `socketBegin`, `socketConnect` and `start = millis()`. -/
def World.atLoop (hdr : Header) (w : World) (h : Nat) (ip : IP6Address) (port : Nat) : World :=
  { w with ticks := w.ticks + 1, begins := w.begins + 1,
           trace := w.trace ++ [Call.socketBegin hdr.SnMR.TCP6 0, Call.socketConnect h ip port] }

/-- World in which `connect` returns after `n` status polls of the allocated socket `h`,
when `socketBegin` was called in `w`; `closed` tells whether it left the loop through the
timeout (one more clock reading than a `return` in the same pass, then `socketClose`). -/
def World.afterConnect (hdr : Header) (w : World) (h : Nat) (ip : IP6Address) (port n : Nat)
    (closed : Bool) : World :=
  { polls := w.polls + n
    ticks := w.ticks + (if closed then n + 1 else n)
    begins := w.begins + 1
    recvs := w.recvs
    delays := w.delays + (n - 1)
    trace := w.trace ++ [Call.socketBegin hdr.SnMR.TCP6 0, Call.socketConnect h ip port]
      ++ List.replicate n (Call.socketStatus h)
      ++ (if closed then [Call.socketClose h] else []) }

/-- World at the first pass of the loop of `stop` on socket `h`: after `socketDisconnect`
and `start = millis()`. -/
def World.atStopLoop (w : World) (h : Nat) : World :=
  { w with ticks := w.ticks + 1, trace := w.trace ++ [Call.socketDisconnect h] }

/-- World in which `stop` returns after `n` status polls of socket `h`; `closed` tells
whether it left the loop through the timeout and closed the socket by force. -/
def World.afterStop (w : World) (h n : Nat) (closed : Bool) : World :=
  { polls := w.polls + n
    ticks := w.ticks + (if closed then n + 1 else n)
    begins := w.begins
    recvs := w.recvs
    delays := w.delays + (if closed then n else n - 1)
    trace := w.trace ++ [Call.socketDisconnect h] ++ List.replicate n (Call.socketStatus h)
      ++ (if closed then [Call.socketClose h] else []) }

/-- The calls of `releaseOld` on a client with socket index `s` when the status poll
answers `stat`. -/
def releaseCalls (hdr : Header) (s stat : Nat) : List Call :=
  if s < hdr.MAX_SOCK_NUM then
    if stat ≠ hdr.SnSR.CLOSED then [Call.socketStatus s, Call.socketDisconnect s]
    else [Call.socketStatus s]
  else []

/-- The address is one of the two that `connect` refuses. -/
def Reserved (hdr : Header) (ip : IP6Address) : Prop :=
  ip = hdr.ofUInt32 0 ∨ ip = hdr.ofUInt32 4294967295

instance (hdr : Header) (ip : IP6Address) : Decidable (Reserved hdr ip) := by
  unfold Reserved; infer_instance

/-- A peer that never answers, seen through a clock that stands still. -/
def frozenClock : Env :=
  { status := fun _ => SYNSENT, clock := fun _ => 0, alloc := fun _ => 2,
    recvAvailable := fun _ => 0, hostByName := fun _ => none }

/-- The calls `connect` can issue once the old handle is let go, when `socketBegin` answers
`a`: none (reserved target), the allocation alone (no socket left), or the allocation, the
connect request and `n` status polls of `a`, followed or not by the forced close of `a`. -/
def ConnectCalls (hdr : Header) (a : Nat) (ip : IP6Address) (port : Nat) (rest : List Call) :
    Prop :=
  rest = [] ∨ rest = [Call.socketBegin hdr.SnMR.TCP6 0] ∨
  ∃ n, rest = [Call.socketBegin hdr.SnMR.TCP6 0, Call.socketConnect a ip port]
        ++ List.replicate n (Call.socketStatus a) ∨
       rest = [Call.socketBegin hdr.SnMR.TCP6 0, Call.socketConnect a ip port]
        ++ List.replicate n (Call.socketStatus a) ++ [Call.socketClose a]

/-- A register file for socket 2: mode `mr`, extended status `esr`, destination registers
192.0.2.1 and 2001:db8::1. -/
def sampleChip (mr esr : Nat) : W5100 :=
  { SnMR := fun _ => mr, SnESR := fun _ => esr, SnDIPR := fun _ => [192, 0, 2, 1],
    SnDIP6R := fun _ => sampleAddr }

/-- World after `j` passes of a polling loop on socket `s` that all went on to the next
pass: `j` status polls, `j` clock readings and `j` calls of `delay(1)`. -/
def World.afterPasses (w : World) (s j : Nat) : World :=
  { w with polls := w.polls + j, ticks := w.ticks + j, delays := w.delays + j,
           trace := w.trace ++ List.replicate j (Call.socketStatus s) }

/-! ## Theorems -/

theorem afterPasses_zero (w : World) (s : Nat) : w.afterPasses s 0 = w := by
  cases w; simp [World.afterPasses]

theorem afterPasses_succ (env : Env) (w : World) (s j : Nat) :
    (delay (millis env (socketStatus env s w).2).2).afterPasses s j = w.afterPasses s (j + 1) := by
  cases w
  simp only [World.afterPasses, delay, millis, socketStatus, List.replicate_succ,
    World.mk.injEq, List.append_assoc, List.singleton_append, and_true]
  refine ⟨?_, ?_, trivial, trivial, ?_⟩ <;> omega

theorem afterPasses_succ_stop (env : Env) (w : World) (s j : Nat) :
    ((millis env (delay (socketStatus env s w).2)).2).afterPasses s j
      = w.afterPasses s (j + 1) := by
  cases w
  simp only [World.afterPasses, delay, millis, socketStatus, List.replicate_succ,
    World.mk.injEq, List.append_assoc, List.singleton_append, and_true]
  refine ⟨?_, ?_, trivial, trivial, ?_⟩ <;> omega

/-- Passes of the `connect` loop that see a pending status and no timeout just go on. -/
theorem connectLoop_passes (hdr : Header) (env : Env) (c : EthernetClient2) (start : Nat)
    (j : Nat) : ∀ (fuel : Nat) (w : World),
    (∀ i, i < j → Pending hdr (env.status (w.polls + i)) ∧
      ¬ elapsed (env.clock (w.ticks + i) % 4294967296) start > c._timeout) →
    connectLoop hdr env c start (fuel + j) w
      = connectLoop hdr env c start fuel (w.afterPasses c.sockindex j) := by
  induction j with
  | zero => intro fuel w _; simp [afterPasses_zero]
  | succ j ih =>
    intro fuel w h
    have h0 := h 0 (Nat.succ_pos j)
    simp only [Nat.add_zero, Pending] at h0
    obtain ⟨⟨h1, h2, h3⟩, h4⟩ := h0
    have hstep : connectLoop hdr env c start (fuel + j + 1) w
        = connectLoop hdr env c start (fuel + j)
            (delay (millis env (socketStatus env c.sockindex w).2).2) := by
      simp only [connectLoop]
      simp only [socketStatus, millis] at *
      simp [h1, h2, h3, h4]
    rw [← Nat.add_assoc, hstep, ih, afterPasses_succ]
    intro i hi
    have := h (i + 1) (Nat.succ_lt_succ hi)
    simp only [delay, millis, socketStatus]
    rw [show w.polls + 1 + i = w.polls + (i + 1) by omega,
      show w.ticks + 1 + i = w.ticks + (i + 1) by omega]
    exact this

/-- Passes of the `stop` loop that see a status other than `CLOSED` and no timeout go on. -/
theorem stopLoop_passes (hdr : Header) (env : Env) (c : EthernetClient2) (start : Nat)
    (j : Nat) : ∀ (fuel : Nat) (w : World),
    (∀ i, i < j → env.status (w.polls + i) ≠ hdr.SnSR.CLOSED ∧
      elapsed (env.clock (w.ticks + i) % 4294967296) start < c._timeout) →
    stopLoop hdr env c start (fuel + j) w
      = stopLoop hdr env c start fuel (w.afterPasses c.sockindex j) := by
  induction j with
  | zero => intro fuel w _; simp [afterPasses_zero]
  | succ j ih =>
    intro fuel w h
    have h0 := h 0 (Nat.succ_pos j)
    simp only [Nat.add_zero] at h0
    obtain ⟨h1, h2⟩ := h0
    have hstep : stopLoop hdr env c start (fuel + j + 1) w
        = stopLoop hdr env c start (fuel + j)
            ((millis env (delay (socketStatus env c.sockindex w).2)).2) := by
      simp only [stopLoop]
      simp only [socketStatus, millis, delay] at *
      simp [h1, h2]
    rw [← Nat.add_assoc, hstep, ih, afterPasses_succ_stop]
    intro i hi
    have := h (i + 1) (Nat.succ_lt_succ hi)
    simp only [delay, millis, socketStatus]
    rw [show w.polls + 1 + i = w.polls + (i + 1) by omega,
      show w.ticks + 1 + i = w.ticks + (i + 1) by omega]
    exact this


/-- What `releaseOld` leaves behind. -/
theorem releaseOld_eq (hdr : Header) (env : Env) (c : EthernetClient2) (w : World) :
    releaseOld hdr env c w =
      (if c.sockindex < hdr.MAX_SOCK_NUM then { c with sockindex := hdr.MAX_SOCK_NUM } else c,
       { w with polls := if c.sockindex < hdr.MAX_SOCK_NUM then w.polls + 1 else w.polls,
                trace := w.trace ++ releaseCalls hdr c.sockindex (env.status w.polls) }) := by
  rcases w with ⟨p, t, b, r, d, tr⟩
  unfold releaseOld releaseCalls socketStatus socketDisconnect
  by_cases h : c.sockindex < hdr.MAX_SOCK_NUM
  · by_cases h2 : env.status p = hdr.SnSR.CLOSED <;> simp [h, h2]
  · simp [h]

theorem releaseOld_timeout (hdr : Header) (env : Env) (c : EthernetClient2) (w : World) :
    (releaseOld hdr env c w).1._timeout = c._timeout := by
  rw [releaseOld_eq]; dsimp only; split <;> rfl

theorem releaseOld_unbound (hdr : Header) (env : Env) (c : EthernetClient2) (w : World) :
    hdr.MAX_SOCK_NUM ≤ (releaseOld hdr env c w).1.sockindex := by
  rw [releaseOld_eq]; dsimp only; split
  · exact Nat.le_refl _
  · omega

theorem releaseOld_unbound_eq (hdr : Header) (env : Env) (c : EthernetClient2) (w : World)
    (hc : c.sockindex ≤ hdr.MAX_SOCK_NUM) :
    (releaseOld hdr env c w).1.sockindex = hdr.MAX_SOCK_NUM := by
  rw [releaseOld_eq]; dsimp only; split
  · rfl
  · omega

theorem releaseCalls_no_begin (hdr : Header) (s stat p q : Nat) :
    Call.socketBegin p q ∉ releaseCalls hdr s stat := by
  unfold releaseCalls; split
  · split <;> simp
  · simp

theorem releaseCalls_no_close (hdr : Header) (s stat h : Nat) :
    Call.socketClose h ∉ releaseCalls hdr s stat := by
  unfold releaseCalls; split
  · split <;> simp
  · simp

/-- C3: for every client state, port and fuel, `connect` to `IP6Address(0)` or to
`IP6Address(0xFFFFFFFF)` returns 0 right after letting go of the old handle: the allocator
is not called (no answer of `socketBegin` is consumed and no `socketBegin` is among the
calls issued) and the client ends unbound, with `sockindex == MAX_SOCK_NUM` whenever it
started with `sockindex <= MAX_SOCK_NUM`. -/
theorem connect_reserved_refused (hdr : Header) (env : Env) (fuel : Nat) (c : EthernetClient2)
    (w : World) (ip : IP6Address) (port : Nat)
    (hip : ip = hdr.ofUInt32 0 ∨ ip = hdr.ofUInt32 4294967295) :
    ∃ c1 w1 calls, connect hdr env fuel c w ip port = some (0, c1, w1) ∧
      w1.begins = w.begins ∧ w1.trace = w.trace ++ calls ∧
      (∀ p q, Call.socketBegin p q ∉ calls) ∧
      hdr.MAX_SOCK_NUM ≤ c1.sockindex ∧
      (c.sockindex ≤ hdr.MAX_SOCK_NUM → c1.sockindex = hdr.MAX_SOCK_NUM) := by
  refine ⟨(releaseOld hdr env c w).1, (releaseOld hdr env c w).2,
    releaseCalls hdr c.sockindex (env.status w.polls), ?_, ?_, ?_, ?_, ?_, ?_⟩
  · simp only [connect]; rw [if_pos hip]
  · rw [releaseOld_eq]
  · rw [releaseOld_eq]
  · intro p q; exact releaseCalls_no_begin hdr _ _ p q
  · exact releaseOld_unbound hdr env c w
  · exact releaseOld_unbound_eq hdr env c w

/-- The refusal of `connect`, on a client that holds the established socket 3 and is asked
to connect to 255.255.255.255. -/
theorem connect_reserved_refused_witness :
    ∃ c1 w1 calls, connect w6100 (peerAnswering 0 23) 0 ⟨3, 1000⟩ World.init
        (w6100.ofUInt32 4294967295) 80 = some (0, c1, w1) ∧
      w1.begins = World.init.begins ∧ w1.trace = World.init.trace ++ calls ∧
      (∀ p q, Call.socketBegin p q ∉ calls) ∧
      w6100.MAX_SOCK_NUM ≤ c1.sockindex ∧
      ((⟨3, 1000⟩ : EthernetClient2).sockindex ≤ w6100.MAX_SOCK_NUM →
        c1.sockindex = w6100.MAX_SOCK_NUM) :=
  connect_reserved_refused w6100 (peerAnswering 0 23) 0 ⟨3, 1000⟩ World.init
    (w6100.ofUInt32 4294967295) 80 (Or.inr rfl)


/-- Once a handle is allocated, `connect` is the polling loop followed by the forced close. -/
theorem connect_eq_loop (hdr : Header) (env : Env) (fuel : Nat) (c c1 : EthernetClient2)
    (w w1 : World) (ip : IP6Address) (port h : Nat)
    (hrel : releaseOld hdr env c w = (c1, w1))
    (hip : ¬ Reserved hdr ip)
    (halloc : env.alloc w1.begins = h) (hh : h < hdr.MAX_SOCK_NUM) :
    connect hdr env fuel c w ip port =
      match connectLoop hdr env ⟨h, c._timeout⟩ (env.clock w1.ticks % 4294967296) fuel
          (w1.atLoop hdr h ip port) with
      | none => none
      | some (LoopExit.ret v, w2) => some (v, ⟨h, c._timeout⟩, w2)
      | some (LoopExit.brk, w2) => some (0, ⟨hdr.MAX_SOCK_NUM, c._timeout⟩, socketClose h w2) := by
  have ht : c1._timeout = c._timeout := by
    have := releaseOld_timeout hdr env c w
    rw [hrel] at this; exact this
  unfold Reserved at hip
  simp only [connect, hrel]
  rw [if_neg hip]
  simp only [socketBegin, halloc, ge_iff_le, Nat.not_le.mpr hh, if_false, socketConnect, millis,
    ht, World.atLoop, List.append_assoc, List.singleton_append]


/-- A pass of `connect` that sees `ESTABLISHED`, `CLOSE_WAIT` or `CLOSED` after `j` passes
that went on returns there: 1 for the first two, 0 for `CLOSED`, the handle kept. -/
theorem connect_returns_at (hdr : Header) (env : Env) (c c1 : EthernetClient2)
    (w w1 : World) (ip : IP6Address) (port h j : Nat)
    (hrel : releaseOld hdr env c w = (c1, w1))
    (hip : ¬ Reserved hdr ip)
    (halloc : env.alloc w1.begins = h) (hh : h < hdr.MAX_SOCK_NUM)
    (hgo : ∀ i, i < j → Pending hdr (pollStatus env w1 i) ∧ ¬ elapsedAt env w1 i > c._timeout)
    (hst : ¬ Pending hdr (pollStatus env w1 j)) (f : Nat) :
    connect hdr env (f + 1 + j) c w ip port =
      some (if pollStatus env w1 j = hdr.SnSR.ESTABLISHED ∨
              pollStatus env w1 j = hdr.SnSR.CLOSE_WAIT then 1 else 0,
        ⟨h, c._timeout⟩, w1.afterConnect hdr h ip port (j + 1) false) := by
  rw [connect_eq_loop hdr env _ c c1 w w1 ip port h hrel hip halloc hh,
    connectLoop_passes hdr env ⟨h, c._timeout⟩ _ j (f + 1) _ (by
      intro i hi
      have := hgo i hi
      simpa [World.atLoop, pollStatus, elapsedAt, Nat.add_assoc] using this)]
  have hw : (socketStatus env h ((w1.atLoop hdr h ip port).afterPasses h j)).2
      = w1.afterConnect hdr h ip port (j + 1) false := by
    simp [socketStatus, World.atLoop, World.afterPasses, World.afterConnect,
      List.replicate_succ', Nat.add_assoc]
    omega
  have hs : (socketStatus env h ((w1.atLoop hdr h ip port).afterPasses h j)).1
      = pollStatus env w1 j := by
    simp [socketStatus, World.atLoop, World.afterPasses, pollStatus]
  simp only [connectLoop]
  rw [hw, hs]
  unfold Pending at hst
  by_cases h1 : pollStatus env w1 j = hdr.SnSR.ESTABLISHED
  · simp [h1]
  · by_cases h2 : pollStatus env w1 j = hdr.SnSR.CLOSE_WAIT
    · simp [h1, h2]
    · have h3 : pollStatus env w1 j = hdr.SnSR.CLOSED := by
        by_contra h3; exact hst ⟨h1, h2, h3⟩
      simp [h1, h2, h3]
      rw [h3] at h1 h2
      simp [h1, h2]

/-- A pass of `connect` that sees a pending status and a timeout after `j` passes that
went on breaks out: the socket is closed, the client unbound, 0 returned. -/
theorem connect_breaks_at (hdr : Header) (env : Env) (c c1 : EthernetClient2)
    (w w1 : World) (ip : IP6Address) (port h j : Nat)
    (hrel : releaseOld hdr env c w = (c1, w1))
    (hip : ¬ Reserved hdr ip)
    (halloc : env.alloc w1.begins = h) (hh : h < hdr.MAX_SOCK_NUM)
    (hgo : ∀ i, i < j → Pending hdr (pollStatus env w1 i) ∧ ¬ elapsedAt env w1 i > c._timeout)
    (hst : Pending hdr (pollStatus env w1 j)) (hout : elapsedAt env w1 j > c._timeout)
    (f : Nat) :
    connect hdr env (f + 1 + j) c w ip port =
      some (0, ⟨hdr.MAX_SOCK_NUM, c._timeout⟩, w1.afterConnect hdr h ip port (j + 1) true) := by
  rw [connect_eq_loop hdr env _ c c1 w w1 ip port h hrel hip halloc hh,
    connectLoop_passes hdr env ⟨h, c._timeout⟩ _ j (f + 1) _ (by
      intro i hi
      have := hgo i hi
      simpa [World.atLoop, pollStatus, elapsedAt, Nat.add_assoc] using this)]
  have hs : (socketStatus env h ((w1.atLoop hdr h ip port).afterPasses h j)).1
      = pollStatus env w1 j := by
    simp [socketStatus, World.atLoop, World.afterPasses, pollStatus]
  have he : (millis env (socketStatus env h ((w1.atLoop hdr h ip port).afterPasses h j)).2).1
      = env.clock (w1.ticks + 1 + j) % 4294967296 := by
    simp [socketStatus, millis, World.atLoop, World.afterPasses]
  have hw : socketClose h
      (millis env (socketStatus env h ((w1.atLoop hdr h ip port).afterPasses h j)).2).2
      = w1.afterConnect hdr h ip port (j + 1) true := by
    simp [socketStatus, millis, socketClose, World.atLoop, World.afterPasses,
      World.afterConnect, List.replicate_succ', Nat.add_assoc]
    omega
  unfold Pending at hst
  unfold elapsedAt at hout
  simp only [connectLoop]
  rw [hs, he]
  simp only [hst.1, hst.2.1, hst.2.2, if_false, hout, if_true]
  rw [hw]


/-- When the elapsed time grows by at least 1 per `delay(1)`, pass `i` sees at least `i`. -/
theorem elapsedAt_ge (env : Env) (w1 : World) (T : Nat)
    (hclock : ∀ i, i ≤ T → elapsedAt env w1 i + 1 ≤ elapsedAt env w1 (i + 1)) :
    ∀ i, i ≤ T + 1 → i ≤ elapsedAt env w1 i := by
  intro i
  induction i with
  | zero => intro _; exact Nat.zero_le _
  | succ i ih =>
    intro hi
    have h1 := ih (by omega)
    have h2 := hclock i (by omega)
    omega

/-- On readings that do not go back and span less than 2^32 ms, the 32-bit difference is
the time that passed, wherever the counter wraps. -/
theorem elapsed_exact (a b : Nat) (hab : b ≤ a) (hspan : a - b < 4294967296) :
    elapsed (a % 4294967296) (b % 4294967296) = a - b := by
  unfold elapsed
  omega

/-- A clock that advances by at least 1 ms per `delay(1)`, over a wait of less than 2^32 ms
in all, makes the elapsed time of the loop grow by at least 1 per pass. -/
theorem elapsedAt_of_clock (env : Env) (w1 : World) (T : Nat)
    (hfirst : env.clock w1.ticks ≤ env.clock (w1.ticks + 1))
    (hdelay : ∀ i, i ≤ T → env.clock (w1.ticks + 1 + i) + 1 ≤ env.clock (w1.ticks + 1 + (i + 1)))
    (hspan : env.clock (w1.ticks + 1 + (T + 1)) - env.clock w1.ticks < 4294967296) :
    ∀ i, i ≤ T → elapsedAt env w1 i + 1 ≤ elapsedAt env w1 (i + 1) := by
  have hmono : ∀ i, i ≤ T + 1 → env.clock w1.ticks ≤ env.clock (w1.ticks + 1 + i) ∧
      ∀ k, k ≤ T + 1 - i → env.clock (w1.ticks + 1 + i) ≤ env.clock (w1.ticks + 1 + (i + k)) := by
    intro i hi
    constructor
    · induction i with
      | zero => exact hfirst
      | succ i ih =>
        have := ih (by omega)
        have := hdelay i (by omega)
        omega
    · intro k
      induction k with
      | zero => intro _; exact Nat.le_refl _
      | succ k ih =>
        intro hk
        have := ih (by omega)
        have := hdelay (i + k) (by omega)
        rw [show i + (k + 1) = i + k + 1 by omega]
        omega
  intro i hi
  have h0 := (hmono i (by omega)).1
  have h1 := (hmono (i + 1) (by omega)).1
  have h2 := (hmono i (by omega)).2 (T + 1 - i) (Nat.le_refl _)
  have h3 := (hmono (i + 1) (by omega)).2 (T + 1 - (i + 1)) (Nat.le_refl _)
  rw [show i + (T + 1 - i) = T + 1 by omega] at h2
  rw [show i + 1 + (T + 1 - (i + 1)) = T + 1 by omega] at h3
  have hd := hdelay i hi
  unfold elapsedAt
  rw [elapsed_exact _ _ h0 (by omega), elapsed_exact _ _ h1 (by omega)]
  omega

/-- C10: for every timeout T (`_timeout`) and every allocated handle h, if the statuses
polled by `connect` are all outside ESTABLISHED, CLOSE_WAIT and CLOSED and the elapsed time
`millis() - start` (computed modulo 2^32) grows by at least 1 with every `delay(1)`, as it
does by `elapsedAt_of_clock` when the clock advances by at least 1 ms per `delay(1)` and the
wait spans less than 2^32 ms, then there is a
number n of polls, 1 <= n <= T + 2, such that with any fuel >= n `connect` returns 0 with
the client unbound, having issued `socketBegin`, `socketConnect(h)`, n status polls of h
and then `socketClose(h)`, which is the only `socketClose` it issues. -/
theorem connect_timeout_bounded (hdr : Header) (env : Env) (c c1 : EthernetClient2)
    (w w1 : World) (ip : IP6Address) (port h : Nat)
    (hrel : releaseOld hdr env c w = (c1, w1))
    (hip : ¬ Reserved hdr ip)
    (halloc : env.alloc w1.begins = h) (hh : h < hdr.MAX_SOCK_NUM)
    (hpend : ∀ i, i ≤ c._timeout + 1 → Pending hdr (pollStatus env w1 i))
    (hclock : ∀ i, i ≤ c._timeout → elapsedAt env w1 i + 1 ≤ elapsedAt env w1 (i + 1)) :
    ∃ n, 1 ≤ n ∧ n ≤ c._timeout + 2 ∧ ∀ fuel, n ≤ fuel →
      ∃ w2, connect hdr env fuel c w ip port
          = some (0, { c with sockindex := hdr.MAX_SOCK_NUM }, w2) ∧
        w2.polls = w1.polls + n ∧
        w2.trace = w1.trace ++ [Call.socketBegin hdr.SnMR.TCP6 0, Call.socketConnect h ip port]
          ++ List.replicate n (Call.socketStatus h) ++ [Call.socketClose h] ∧
        ∀ s, w2.trace.count (Call.socketClose s)
          = w1.trace.count (Call.socketClose s) + (if s = h then 1 else 0) := by
  have hex : ∃ j, elapsedAt env w1 j > c._timeout :=
    ⟨c._timeout + 1, elapsedAt_ge env w1 c._timeout hclock _ (Nat.le_refl _)⟩
  have hj : elapsedAt env w1 (Nat.find hex) > c._timeout := Nat.find_spec hex
  have hjle : Nat.find hex ≤ c._timeout + 1 :=
    Nat.find_min' hex (elapsedAt_ge env w1 c._timeout hclock _ (Nat.le_refl _))
  refine ⟨Nat.find hex + 1, by omega, by omega, ?_⟩
  intro fuel hfuel
  refine ⟨w1.afterConnect hdr h ip port (Nat.find hex + 1) true, ?_, ?_, ?_, ?_⟩
  · have := connect_breaks_at hdr env c c1 w w1 ip port h (Nat.find hex) hrel hip halloc hh
      (fun i hi => ⟨hpend i (by omega), Nat.find_min hex hi⟩) (hpend _ hjle) hj
      (fuel - (Nat.find hex + 1))
    rw [show fuel - (Nat.find hex + 1) + 1 + Nat.find hex = fuel by omega] at this
    exact this
  · simp [World.afterConnect]
  · simp [World.afterConnect]
  · intro s
    simp only [World.afterConnect, if_true, List.count_append, List.count_cons,
      List.count_nil, List.count_replicate]
    by_cases hs : s = h <;> simp [hs]
    intro hh'; exact absurd hh'.symm hs


/-- The bound of `connect_timeout_bounded` for a peer that never answers and a timeout of
3 ms: at most 5 polls. -/
theorem connect_timeout_bounded_witness :
    ∃ n, 1 ≤ n ∧ n ≤ (freshClient 3)._timeout + 2 ∧ ∀ fuel, n ≤ fuel →
      ∃ w2, connect w6100 silentPeer fuel (freshClient 3) World.init sampleAddr 80
          = some (0, { freshClient 3 with sockindex := w6100.MAX_SOCK_NUM }, w2) ∧
        w2.polls = World.init.polls + n ∧
        w2.trace = World.init.trace
          ++ [Call.socketBegin w6100.SnMR.TCP6 0, Call.socketConnect 2 sampleAddr 80]
          ++ List.replicate n (Call.socketStatus 2) ++ [Call.socketClose 2] ∧
        ∀ s, w2.trace.count (Call.socketClose s)
          = World.init.trace.count (Call.socketClose s) + (if s = 2 then 1 else 0) :=
  connect_timeout_bounded w6100 silentPeer (freshClient 3) (freshClient 3) World.init World.init
    sampleAddr 80 2 (by decide) (by decide) (by decide) (by decide)
    (fun i _ => by show Pending w6100 21; decide) (by decide)


/-- The allocator has no socket left: `connect` returns 0 and keeps the answer. -/
theorem connect_alloc_fail (hdr : Header) (env : Env) (fuel : Nat) (c c1 : EthernetClient2)
    (w w1 : World) (ip : IP6Address) (port : Nat)
    (hrel : releaseOld hdr env c w = (c1, w1))
    (hip : ¬ Reserved hdr ip)
    (hfull : hdr.MAX_SOCK_NUM ≤ env.alloc w1.begins) :
    connect hdr env fuel c w ip port =
      some (0, ⟨env.alloc w1.begins, c._timeout⟩, (socketBegin env hdr.SnMR.TCP6 0 w1).2) := by
  have ht : c1._timeout = c._timeout := by
    have := releaseOld_timeout hdr env c w
    rw [hrel] at this; exact this
  unfold Reserved at hip
  simp only [connect, hrel]
  rw [if_neg hip]
  simp only [socketBegin, ge_iff_le, hfull, if_true, ht]

/-- `connected()` on a bound client whose status poll answers `ESTABLISHED`. -/
theorem connected_established (hdr : Header) (env : Env) (c : EthernetClient2) (w : World)
    (hd : hdr.SnSR.Distinct) (hc : c.sockindex < hdr.MAX_SOCK_NUM)
    (hst : env.status w.polls = hdr.SnSR.ESTABLISHED) :
    (connected hdr env c w).1 = 1 := by
  unfold SnSRCodes.Distinct at hd
  simp only [List.nodup_cons, List.mem_cons, List.mem_singleton, not_or, List.not_mem_nil,
    not_false_eq_true, List.nodup_nil, and_true] at hd
  obtain ⟨⟨-, h0, -, -⟩, ⟨h1, -, -⟩, ⟨h2, h3⟩, -⟩ := hd
  have e1 : hdr.SnSR.ESTABLISHED ≠ hdr.SnSR.LISTEN := fun e => h1 e.symm
  have e2 : hdr.SnSR.ESTABLISHED ≠ hdr.SnSR.CLOSED := fun e => h0 e.symm
  simp only [connected, socketStatus, ge_iff_le, Nat.not_le.mpr hc, if_false, hst]
  simp [e1, e2, h2, h3]


/-- C4: for every timeout and every non-reserved target for which a handle h is allocated,
if pass j of the polling loop of `connect` observes ESTABLISHED and every earlier pass saw a
pending status and no timeout, then with any fuel > j `connect` returns 1, the client keeps
the allocated handle (`sockindex = h < MAX_SOCK_NUM`), the calls issued after letting go of
the old handle are `socketBegin`, `socketConnect(h)` and j + 1 status polls of h, no
`socketClose` is issued, and `connected()` evaluated next, while the status still reads
ESTABLISHED, returns 1. -/
theorem connect_established (hdr : Header) (env : Env) (c c1 : EthernetClient2)
    (w w1 : World) (ip : IP6Address) (port h j : Nat)
    (hd : hdr.SnSR.Distinct)
    (hrel : releaseOld hdr env c w = (c1, w1))
    (hip : ¬ Reserved hdr ip)
    (halloc : env.alloc w1.begins = h) (hh : h < hdr.MAX_SOCK_NUM)
    (hgo : ∀ i, i < j → Pending hdr (pollStatus env w1 i) ∧ ¬ elapsedAt env w1 i > c._timeout)
    (hest : pollStatus env w1 j = hdr.SnSR.ESTABLISHED) :
    ∀ fuel, j < fuel →
      ∃ w2, connect hdr env fuel c w ip port = some (1, { c with sockindex := h }, w2) ∧
        ({ c with sockindex := h } : EthernetClient2).sockindex < hdr.MAX_SOCK_NUM ∧
        w2.trace = w1.trace ++ [Call.socketBegin hdr.SnMR.TCP6 0, Call.socketConnect h ip port]
          ++ List.replicate (j + 1) (Call.socketStatus h) ∧
        (∀ s, w2.trace.count (Call.socketClose s) = w.trace.count (Call.socketClose s)) ∧
        (env.status w2.polls = hdr.SnSR.ESTABLISHED →
          (connected hdr env { c with sockindex := h } w2).1 = 1) := by
  intro fuel hfuel
  have hw1 : w1.trace = w.trace ++ releaseCalls hdr c.sockindex (env.status w.polls) := by
    have := releaseOld_eq hdr env c w
    rw [hrel] at this
    exact (congrArg (fun p => p.2.trace) this)
  refine ⟨w1.afterConnect hdr h ip port (j + 1) false, ?_, hh, ?_, ?_, ?_⟩
  · have := connect_returns_at hdr env c c1 w w1 ip port h j hrel hip halloc hh hgo
      (by unfold Pending; simp [hest]) (fuel - (j + 1))
    rw [show fuel - (j + 1) + 1 + j = fuel by omega] at this
    rw [this]
    simp [hest]
  · simp [World.afterConnect]
  · intro s
    have hno := releaseCalls_no_close hdr c.sockindex (env.status w.polls) s
    simp only [World.afterConnect, hw1, List.count_append, List.count_cons,
      List.count_nil, List.count_replicate, List.count_eq_zero_of_not_mem hno]
    simp
  · intro hst
    exact connected_established hdr env _ _ hd hh hst

/-- The success of `connect` for a peer whose ESTABLISHED shows up at the third poll. -/
theorem connect_established_witness :
      ∃ w2, connect w6100 (peerAnswering 2 23) 5 (freshClient 1000) World.init sampleAddr 80
          = some (1, { freshClient 1000 with sockindex := 2 }, w2) ∧
        ({ freshClient 1000 with sockindex := 2 } : EthernetClient2).sockindex
          < w6100.MAX_SOCK_NUM ∧
        w2.trace = World.init.trace
          ++ [Call.socketBegin w6100.SnMR.TCP6 0, Call.socketConnect 2 sampleAddr 80]
          ++ List.replicate (2 + 1) (Call.socketStatus 2) ∧
        (∀ s, w2.trace.count (Call.socketClose s)
          = World.init.trace.count (Call.socketClose s)) ∧
        ((peerAnswering 2 23).status w2.polls = w6100.SnSR.ESTABLISHED →
          (connected w6100 (peerAnswering 2 23) { freshClient 1000 with sockindex := 2 } w2).1
            = 1) :=
  connect_established w6100 (peerAnswering 2 23) (freshClient 1000) (freshClient 1000)
    World.init World.init sampleAddr 80 2 2 (by decide) (by decide) (by decide) (by decide)
    (by decide) (by decide) (by decide) 5 (by decide)

/-- C1 (amended): for every timeout T, port and non-reserved target, an allocator that
answers a handle or `MAX_SOCK_NUM`, polled statuses that are never ESTABLISHED and never
CLOSE_WAIT, and an elapsed time `millis() - start` (on 32 bits) that grows by at least 1
with every `delay(1)`: there is n <= T + 2 such that with any fuel >= n `connect` returns 0
after n status polls, and when none of these polls observed CLOSED the client is unbound on
return (`sockindex == MAX_SOCK_NUM`). -/
theorem connect_fails_without_established (hdr : Header) (env : Env) (c c1 : EthernetClient2)
    (w w1 : World) (ip : IP6Address) (port : Nat)
    (hrel : releaseOld hdr env c w = (c1, w1))
    (hip : ¬ Reserved hdr ip)
    (hcontract : env.alloc w1.begins ≤ hdr.MAX_SOCK_NUM)
    (hnever : ∀ i, i ≤ c._timeout + 1 → pollStatus env w1 i ≠ hdr.SnSR.ESTABLISHED ∧
      pollStatus env w1 i ≠ hdr.SnSR.CLOSE_WAIT)
    (hclock : ∀ i, i ≤ c._timeout → elapsedAt env w1 i + 1 ≤ elapsedAt env w1 (i + 1)) :
    ∃ n, n ≤ c._timeout + 2 ∧ ∀ fuel, n ≤ fuel →
      ∃ c2 w2, connect hdr env fuel c w ip port = some (0, c2, w2) ∧
        w2.polls = w1.polls + n ∧
        ((∀ i, i < n → pollStatus env w1 i ≠ hdr.SnSR.CLOSED) →
          c2.sockindex = hdr.MAX_SOCK_NUM) := by
  by_cases hh : env.alloc w1.begins < hdr.MAX_SOCK_NUM
  · have hex : ∃ j, ¬ Pending hdr (pollStatus env w1 j) ∨ elapsedAt env w1 j > c._timeout :=
      ⟨c._timeout + 1, Or.inr (elapsedAt_ge env w1 c._timeout hclock _ (Nat.le_refl _))⟩
    have hjle : Nat.find hex ≤ c._timeout + 1 :=
      Nat.find_min' hex (Or.inr (elapsedAt_ge env w1 c._timeout hclock _ (Nat.le_refl _)))
    have hgo : ∀ i, i < Nat.find hex →
        Pending hdr (pollStatus env w1 i) ∧ ¬ elapsedAt env w1 i > c._timeout := by
      intro i hi
      have := Nat.find_min hex hi
      simp only [not_or, not_not] at this
      exact this
    refine ⟨Nat.find hex + 1, by omega, ?_⟩
    intro fuel hfuel
    have hfe : fuel - (Nat.find hex + 1) + 1 + Nat.find hex = fuel := by omega
    by_cases hp : Pending hdr (pollStatus env w1 (Nat.find hex))
    · have hout : elapsedAt env w1 (Nat.find hex) > c._timeout := by
        rcases Nat.find_spec hex with h1 | h1
        · exact absurd hp h1
        · exact h1
      have := connect_breaks_at hdr env c c1 w w1 ip port _ (Nat.find hex) hrel hip rfl hh
        hgo hp hout (fuel - (Nat.find hex + 1))
      rw [hfe] at this
      exact ⟨_, _, this, by simp [World.afterConnect], fun _ => rfl⟩
    · have := connect_returns_at hdr env c c1 w w1 ip port _ (Nat.find hex) hrel hip rfl hh
        hgo hp (fuel - (Nat.find hex + 1))
      rw [hfe] at this
      have hn := hnever _ hjle
      rw [if_neg (by simp [hn.1, hn.2])] at this
      refine ⟨_, _, this, by simp [World.afterConnect], ?_⟩
      intro hcl
      exfalso
      apply hp
      exact ⟨hn.1, hn.2, hcl _ (Nat.lt_succ_self _)⟩
  · refine ⟨0, Nat.zero_le _, ?_⟩
    intro fuel _
    have hfull : hdr.MAX_SOCK_NUM ≤ env.alloc w1.begins := Nat.le_of_not_lt hh
    refine ⟨_, _, connect_alloc_fail hdr env fuel c c1 w w1 ip port hrel hip hfull, ?_, ?_⟩
    · simp [socketBegin]
    · intro _; exact Nat.le_antisymm hcontract hfull

/-- While every pass sees a pending status and no timeout, `connect` does not return. -/
theorem connect_never_returns (hdr : Header) (env : Env) (fuel : Nat)
    (c c1 : EthernetClient2) (w w1 : World) (ip : IP6Address) (port h : Nat)
    (hrel : releaseOld hdr env c w = (c1, w1))
    (hip : ¬ Reserved hdr ip)
    (halloc : env.alloc w1.begins = h) (hh : h < hdr.MAX_SOCK_NUM)
    (hgo : ∀ i, Pending hdr (pollStatus env w1 i) ∧ ¬ elapsedAt env w1 i > c._timeout) :
    connect hdr env fuel c w ip port = none := by
  rw [connect_eq_loop hdr env _ c c1 w w1 ip port h hrel hip halloc hh]
  have := connectLoop_passes hdr env ⟨h, c._timeout⟩ (env.clock w1.ticks % 4294967296) fuel 0
    (w1.atLoop hdr h ip port) (by
      intro i _
      have := hgo i
      simpa [World.atLoop, pollStatus, elapsedAt, Nat.add_assoc] using this)
  rw [Nat.zero_add] at this
  rw [this]
  simp [connectLoop]

/-- The failure of `connect` for a peer that never answers, timeout 3 ms. -/
theorem connect_fails_without_established_witness :
    ∃ n, n ≤ (freshClient 3)._timeout + 2 ∧ ∀ fuel, n ≤ fuel →
      ∃ c2 w2, connect w6100 silentPeer fuel (freshClient 3) World.init sampleAddr 80
          = some (0, c2, w2) ∧
        w2.polls = World.init.polls + n ∧
        ((∀ i, i < n → pollStatus silentPeer World.init i ≠ w6100.SnSR.CLOSED) →
          c2.sockindex = w6100.MAX_SOCK_NUM) :=
  connect_fails_without_established w6100 silentPeer (freshClient 3) (freshClient 3)
    World.init World.init sampleAddr 80 (by decide) (by decide) (by decide)
    (fun i _ => by
      show (21 : Nat) ≠ 23 ∧ (21 : Nat) ≠ 28
      decide)
    (by decide)

/-- C1 as stated fails: none of the three peers below ever shows ESTABLISHED and the
target is not reserved, yet against the first (CLOSE_WAIT at the first poll) `connect`
returns 1 with the client bound to socket 2, against the second (CLOSED at the first poll)
it returns 0 with the client still bound to socket 2, and against the third (status pending
for ever, clock standing still) it does not return whatever the fuel. -/
theorem connect_without_established_counterexample :
    (∀ k, (peerAnswering 0 28).status k ≠ w6100.SnSR.ESTABLISHED) ∧
    (∀ k, (peerAnswering 0 0).status k ≠ w6100.SnSR.ESTABLISHED) ∧
    ¬ Reserved w6100 sampleAddr ∧
    connect w6100 (peerAnswering 0 28) 1 (freshClient 1000) World.init sampleAddr 80
      = some (1, ⟨2, 1000⟩, World.init.afterConnect w6100 2 sampleAddr 80 1 false) ∧
    connect w6100 (peerAnswering 0 0) 1 (freshClient 1000) World.init sampleAddr 80
      = some (0, ⟨2, 1000⟩, World.init.afterConnect w6100 2 sampleAddr 80 1 false) ∧
    (2 : Nat) ≠ w6100.MAX_SOCK_NUM ∧
    (∀ k, frozenClock.status k ≠ w6100.SnSR.ESTABLISHED) ∧
    (∀ fuel, connect w6100 frozenClock fuel (freshClient 1000) World.init sampleAddr 80
      = none) := by
  refine ⟨?_, ?_, by decide, by decide, by decide, by decide,
    fun k => (by decide : (21 : Nat) ≠ 23), ?_⟩
  rotate_left 2
  · intro fuel
    exact connect_never_returns w6100 frozenClock fuel (freshClient 1000) (freshClient 1000)
      World.init World.init sampleAddr 80 2 (by decide) (by decide) (by decide) (by decide)
      (fun i => by
        show Pending w6100 21 ∧ ¬ elapsed (0 % 4294967296) (0 % 4294967296) > 1000
        decide)
  · intro k
    simp only [peerAnswering]
    split <;> decide
  · intro k
    simp only [peerAnswering]
    split <;> decide


/-- The loop of `connect` issues status polls of its own socket and nothing else. -/
theorem connectLoop_trace (hdr : Header) (env : Env) (c : EthernetClient2) (start : Nat) :
    ∀ (fuel : Nat) (w : World) (r : LoopExit) (w2 : World),
    connectLoop hdr env c start fuel w = some (r, w2) →
    ∃ n, w2.trace = w.trace ++ List.replicate n (Call.socketStatus c.sockindex) := by
  intro fuel
  induction fuel with
  | zero => intro w r w2 h; simp [connectLoop] at h
  | succ fuel ih =>
    intro w r w2 h
    simp only [connectLoop, socketStatus, millis] at h
    split at h
    · simp only [Option.some.injEq, Prod.mk.injEq] at h
      exact ⟨1, by rw [← h.2]; rfl⟩
    · split at h
      · simp only [Option.some.injEq, Prod.mk.injEq] at h
        exact ⟨1, by rw [← h.2]; rfl⟩
      · split at h
        · simp only [Option.some.injEq, Prod.mk.injEq] at h
          exact ⟨1, by rw [← h.2]; rfl⟩
        · split at h
          · simp only [Option.some.injEq, Prod.mk.injEq] at h
            exact ⟨1, by rw [← h.2]; rfl⟩
          · obtain ⟨n, hn⟩ := ih _ r w2 h
            refine ⟨n + 1, ?_⟩
            rw [hn]
            simp [delay, List.replicate_succ]

/-- The calls of a `connect` that returns: those of `releaseOld`, then `ConnectCalls` for
the handle that `socketBegin` answers; the client ends with that handle or unbound. -/
theorem connect_trace (hdr : Header) (env : Env) (fuel : Nat) (c : EthernetClient2)
    (w : World) (ip : IP6Address) (port r : Nat) (c2 : EthernetClient2) (w2 : World)
    (hret : connect hdr env fuel c w ip port = some (r, c2, w2)) :
    ∃ rest, w2.trace = w.trace ++ releaseCalls hdr c.sockindex (env.status w.polls) ++ rest ∧
      ConnectCalls hdr (env.alloc w.begins) ip port rest ∧
      (c2.sockindex = env.alloc w.begins ∨ c2.sockindex = hdr.MAX_SOCK_NUM ∨
        (c2.sockindex = c.sockindex ∧ hdr.MAX_SOCK_NUM ≤ c.sockindex ∧ rest = [])) := by
  have hrel : releaseOld hdr env c w
      = ((releaseOld hdr env c w).1, (releaseOld hdr env c w).2) := rfl
  have hb : (releaseOld hdr env c w).2.begins = w.begins := by rw [releaseOld_eq]
  have ht : (releaseOld hdr env c w).2.trace
      = w.trace ++ releaseCalls hdr c.sockindex (env.status w.polls) := by rw [releaseOld_eq]
  have hs : (releaseOld hdr env c w).1.sockindex = hdr.MAX_SOCK_NUM ∨
      ((releaseOld hdr env c w).1.sockindex = c.sockindex ∧
        hdr.MAX_SOCK_NUM ≤ c.sockindex) := by
    rw [releaseOld_eq]; dsimp only; split
    · exact Or.inl rfl
    · rename_i hlt; exact Or.inr ⟨rfl, Nat.le_of_not_lt hlt⟩
  generalize (releaseOld hdr env c w).1 = c1 at hrel hs
  generalize (releaseOld hdr env c w).2 = w1 at hrel hb ht
  by_cases hip : Reserved hdr ip
  · have : connect hdr env fuel c w ip port = some (0, c1, w1) := by
      unfold Reserved at hip
      simp only [connect, hrel]; rw [if_pos hip]
    rw [this] at hret
    simp only [Option.some.injEq, Prod.mk.injEq] at hret
    obtain ⟨-, h1, h2⟩ := hret
    refine ⟨[], by rw [← h2, ht]; simp, Or.inl rfl, ?_⟩
    rw [← h1]
    rcases hs with hs | hs
    · exact Or.inr (Or.inl hs)
    · exact Or.inr (Or.inr ⟨hs.1, hs.2, rfl⟩)
  · by_cases hh : env.alloc w1.begins < hdr.MAX_SOCK_NUM
    · rw [connect_eq_loop hdr env _ c c1 w w1 ip port _ hrel hip rfl hh] at hret
      split at hret
      · simp at hret
      · rename_i v w3 hloop
        simp only [Option.some.injEq, Prod.mk.injEq] at hret
        obtain ⟨n, hn⟩ := connectLoop_trace hdr env _ _ _ _ _ _ hloop
        refine ⟨_, ?_, Or.inr (Or.inr ⟨n, Or.inl rfl⟩), ?_⟩
        · rw [← hret.2.2, hn]
          simp [World.atLoop, ht, hb]
        · rw [← hret.2.1]; exact Or.inl (by rw [hb])
      · rename_i w3 hloop
        simp only [Option.some.injEq, Prod.mk.injEq] at hret
        obtain ⟨n, hn⟩ := connectLoop_trace hdr env _ _ _ _ _ _ hloop
        refine ⟨_, ?_, Or.inr (Or.inr ⟨n, Or.inr rfl⟩), ?_⟩
        · rw [← hret.2.2]
          simp [socketClose, hn, World.atLoop, ht, hb]
        · rw [← hret.2.1]; exact Or.inr (Or.inl rfl)
    · rw [connect_alloc_fail hdr env fuel c c1 w w1 ip port hrel hip (Nat.le_of_not_lt hh)]
        at hret
      simp only [Option.some.injEq, Prod.mk.injEq] at hret
      refine ⟨[Call.socketBegin hdr.SnMR.TCP6 0], ?_, Or.inr (Or.inl rfl), ?_⟩
      · rw [← hret.2.2]; simp [socketBegin, ht]
      · rw [← hret.2.1]; exact Or.inl (by rw [hb])


/-- In `ConnectCalls` every status poll and every forced close targets the handle the
allocator answered, and there is no disconnect. -/
theorem ConnectCalls_targets (hdr : Header) (a : Nat) (ip : IP6Address) (port : Nat)
    (rest : List Call) (h : ConnectCalls hdr a ip port rest) :
    (∀ s, Call.socketStatus s ∈ rest ∨ Call.socketClose s ∈ rest → s = a) ∧
    (∀ s, Call.socketDisconnect s ∉ rest) := by
  rcases h with h | h | ⟨n, h | h⟩ <;> subst h
  · simp
  · simp
  · constructor
    · intro s hs
      simp only [List.mem_append, List.mem_cons, List.mem_replicate, List.mem_singleton,
        Call.socketStatus.injEq, List.not_mem_nil, or_false, false_or, reduceCtorEq] at hs
      rcases hs with hs | hs
      · exact hs.2
      · exact hs.2.elim
    · intro s; simp
  · constructor
    · intro s hs
      simp only [List.mem_append, List.mem_cons, List.mem_replicate, List.mem_singleton,
        Call.socketStatus.injEq, Call.socketClose.injEq, List.not_mem_nil, or_false,
        false_or, reduceCtorEq] at hs
      rcases hs with hs | hs | hs
      · exact hs.2
      · exact hs.2.elim
      · exact hs
    · intro s; simp

/-- On an unbound client `releaseOld` does nothing. -/
theorem releaseOld_unbound_noop (hdr : Header) (env : Env) (c : EthernetClient2) (w : World)
    (hc : hdr.MAX_SOCK_NUM ≤ c.sockindex) : releaseOld hdr env c w = (c, w) := by
  unfold releaseOld
  rw [if_neg (Nat.not_lt.mpr hc)]


/-- C7: a client that holds a handle h < MAX_SOCK_NUM and calls `connect(ip, port)` first
polls the status of h and, when it is not CLOSED, issues `socketDisconnect(h)`; when it is
CLOSED no disconnect is issued.  The client is then unbound, and the rest of `connect` (and
of the host name overload, which goes on with the name lookup) is what an unbound client
does in the world so reached: it does not depend on h.  In a `connect` that returns, these
calls come first and are followed by `ConnectCalls`: every `socketBegin` comes after them,
no further disconnect is issued, and every later status poll and the forced close target
the handle that `socketBegin` answered, which is also the only handle the client can end
with. -/
theorem connect_releases_old_first (hdr : Header) (env : Env) (fuel : Nat)
    (c : EthernetClient2) (w : World) (ip : IP6Address) (port : Nat)
    (hc : c.sockindex < hdr.MAX_SOCK_NUM) :
    ∃ first w1,
      first = (if env.status w.polls ≠ hdr.SnSR.CLOSED
        then [Call.socketStatus c.sockindex, Call.socketDisconnect c.sockindex]
        else [Call.socketStatus c.sockindex]) ∧
      w1 = { w with polls := w.polls + 1, trace := w.trace ++ first } ∧
      releaseOld hdr env c w = ({ c with sockindex := hdr.MAX_SOCK_NUM }, w1) ∧
      connect hdr env fuel c w ip port
        = connect hdr env fuel { c with sockindex := hdr.MAX_SOCK_NUM } w1 ip port ∧
      (∀ host, connectHost hdr env fuel c w host port
        = connectHost hdr env fuel { c with sockindex := hdr.MAX_SOCK_NUM } w1 host port) ∧
      (∀ host, env.hostByName host = some ip →
        connectHost hdr env fuel c w host port
          = connect hdr env fuel { c with sockindex := hdr.MAX_SOCK_NUM }
              { w1 with trace := w1.trace ++ [Call.getHostByName host] } ip port) ∧
      ∀ r c2 w2, connect hdr env fuel c w ip port = some (r, c2, w2) →
        ∃ rest, w2.trace = w.trace ++ first ++ rest ∧
          ConnectCalls hdr (env.alloc w.begins) ip port rest ∧
          (∀ s, Call.socketStatus s ∈ rest ∨ Call.socketClose s ∈ rest →
            s = env.alloc w.begins) ∧
          (∀ s, Call.socketDisconnect s ∉ rest) ∧
          (c2.sockindex = env.alloc w.begins ∨ c2.sockindex = hdr.MAX_SOCK_NUM) := by
  have hrc : releaseCalls hdr c.sockindex (env.status w.polls)
      = (if env.status w.polls ≠ hdr.SnSR.CLOSED
        then [Call.socketStatus c.sockindex, Call.socketDisconnect c.sockindex]
        else [Call.socketStatus c.sockindex]) := by
    unfold releaseCalls; rw [if_pos hc]
  have hrel := releaseOld_eq hdr env c w
  rw [if_pos hc, if_pos hc, hrc] at hrel
  have hnoop := fun w1 => releaseOld_unbound_noop hdr env
    ({ c with sockindex := hdr.MAX_SOCK_NUM } : EthernetClient2) w1 (Nat.le_refl _)
  refine ⟨_, _, rfl, rfl, hrel, ?_, ?_, ?_, ?_⟩
  · simp only [connect, hrel, hnoop]
  · intro host
    simp only [connectHost, hrel, hnoop]
  · intro host hhost
    simp only [connectHost, hrel, hhost]
  · intro r c2 w2 hret
    obtain ⟨rest, h1, h2, h3⟩ := connect_trace hdr env fuel c w ip port r c2 w2 hret
    rw [hrc] at h1
    have ht := ConnectCalls_targets hdr _ ip port rest h2
    refine ⟨rest, h1, h2, ht.1, ht.2, ?_⟩
    rcases h3 with h3 | h3 | h3
    · exact Or.inl h3
    · exact Or.inr h3
    · omega

/-- The release of the old handle, on a client that holds the established socket 3 and
connects to 2001:db8::1. -/
theorem connect_releases_old_first_witness :
    connect w6100 (peerAnswering 1 23) 5 ⟨3, 1000⟩ World.init sampleAddr 80
      = some (1, ⟨2, 1000⟩,
          { polls := 2, ticks := 1, begins := 1, recvs := 0, delays := 0,
            trace := [Call.socketStatus 3, Call.socketDisconnect 3, Call.socketBegin 9 0,
              Call.socketConnect 2 sampleAddr 80, Call.socketStatus 2] }) ∧
    ∃ first w1,
      first = (if (peerAnswering 1 23).status World.init.polls ≠ w6100.SnSR.CLOSED
        then [Call.socketStatus 3, Call.socketDisconnect 3] else [Call.socketStatus 3]) ∧
      w1 = { World.init with polls := World.init.polls + 1,
                             trace := World.init.trace ++ first } ∧
      releaseOld w6100 (peerAnswering 1 23) ⟨3, 1000⟩ World.init
        = (⟨w6100.MAX_SOCK_NUM, 1000⟩, w1) ∧
      connect w6100 (peerAnswering 1 23) 5 ⟨3, 1000⟩ World.init sampleAddr 80
        = connect w6100 (peerAnswering 1 23) 5 ⟨w6100.MAX_SOCK_NUM, 1000⟩ w1 sampleAddr 80 :=
  ⟨by decide,
    (connect_releases_old_first w6100 (peerAnswering 1 23) 5 ⟨3, 1000⟩ World.init sampleAddr
      80 (by decide)).imp fun _ h => h.imp fun _ h => ⟨h.1, h.2.1, h.2.2.1, h.2.2.2.1⟩⟩


/-- C6: with s the status answered to the poll of `connected()` and n the count answered by
`socketRecvAvailable`: `connected()` returns 0 and touches nothing when the client is unbound
(`sockindex >= MAX_SOCK_NUM`); on a bound client it returns 0 or 1, and 0 exactly when s is
LISTEN, CLOSED or FIN_WAIT, or s is CLOSE_WAIT and n == 0; in particular (the status codes
being pairwise different) it returns 1 for CLOSE_WAIT with n > 0. -/
theorem connected_spec (hdr : Header) (env : Env) (c : EthernetClient2) (w : World) :
    (hdr.MAX_SOCK_NUM ≤ c.sockindex → connected hdr env c w = (0, w)) ∧
    (c.sockindex < hdr.MAX_SOCK_NUM →
      ((connected hdr env c w).1 = 0 ∨ (connected hdr env c w).1 = 1) ∧
      ((connected hdr env c w).1 = 0 ↔
        env.status w.polls = hdr.SnSR.LISTEN ∨ env.status w.polls = hdr.SnSR.CLOSED ∨
        env.status w.polls = hdr.SnSR.FIN_WAIT ∨
        (env.status w.polls = hdr.SnSR.CLOSE_WAIT ∧ env.recvAvailable w.recvs = 0)) ∧
      (hdr.SnSR.Distinct → env.status w.polls = hdr.SnSR.CLOSE_WAIT →
        0 < env.recvAvailable w.recvs → (connected hdr env c w).1 = 1)) := by
  constructor
  · intro hc
    simp only [connected, ge_iff_le, hc, if_true]
  · intro hc
    have hval : (connected hdr env c w).1 =
        if env.status w.polls = hdr.SnSR.LISTEN ∨ env.status w.polls = hdr.SnSR.CLOSED ∨
          env.status w.polls = hdr.SnSR.FIN_WAIT ∨
          (env.status w.polls = hdr.SnSR.CLOSE_WAIT ∧ env.recvAvailable w.recvs = 0)
        then 0 else 1 := by
      simp only [connected, available, socketStatus, socketRecvAvailable, ge_iff_le,
        Nat.not_le.mpr hc, if_false]
      by_cases h1 : env.status w.polls = hdr.SnSR.LISTEN ∨
          env.status w.polls = hdr.SnSR.CLOSED ∨ env.status w.polls = hdr.SnSR.FIN_WAIT
      · rw [if_pos h1, if_pos (by tauto)]
      · rw [if_neg h1]
        by_cases h2 : env.status w.polls = hdr.SnSR.CLOSE_WAIT
        · rw [if_pos h2]
          by_cases h3 : env.recvAvailable w.recvs = 0
          · rw [if_pos h3, if_pos (by tauto)]
          · rw [if_neg h3, if_neg (by tauto)]
        · rw [if_neg h2, if_neg (by tauto)]
    refine ⟨?_, ?_, ?_⟩
    · rw [hval]; split
      · exact Or.inl rfl
      · exact Or.inr rfl
    · rw [hval]; split
      · rename_i h; simp [h]
      · rename_i h; simp [h]
    · intro hd hcw hn
      unfold SnSRCodes.Distinct at hd
      simp only [List.nodup_cons, List.mem_cons, List.mem_singleton, not_or, List.not_mem_nil,
        not_false_eq_true, List.nodup_nil, and_true] at hd
      obtain ⟨⟨-, -, -, a4⟩, ⟨-, -, b3⟩, ⟨-, -⟩, d1⟩ := hd
      rw [hval, hcw, if_neg]
      simp only [not_or, not_and]
      refine ⟨fun e => b3 e.symm, fun e => a4 e.symm, fun e => d1 e.symm, fun _ => by omega⟩

/-- The half-closed socket 2 with 5 bytes still buffered counts as connected. -/
theorem connected_spec_witness :
    (connected w6100
      { status := fun _ => 28, clock := fun _ => 0, alloc := fun _ => 2,
        recvAvailable := fun _ => 5, hostByName := fun _ => none } ⟨2, 1000⟩ World.init).1
      = 1 :=
  (connected_spec w6100
    { status := fun _ => 28, clock := fun _ => 0, alloc := fun _ => 2,
      recvAvailable := fun _ => 5, hostByName := fun _ => none } ⟨2, 1000⟩ World.init).2
    (by decide) |>.2.2 (by decide) (by decide) (by decide)

/-- C8: `maintain()` returns DHCP_CHECK_NONE without calling `checkLease` when `_dhcp2` is
NULL or `use_sateful != 1`; otherwise it calls `checkLease` exactly once, first, and returns
its answer unchanged whatever the code; in every case none of the calls it makes writes an
address register. -/
theorem maintain_spec (hdr : Header) (_dhcp2 : Option DhcpClass2) (lease : Int)
    (log : List EthCall) :
    ((_dhcp2 = none ∨ ∃ d, _dhcp2 = some d ∧ d.use_sateful ≠ 1) →
      maintain hdr _dhcp2 lease log = (hdr.DHCP_CHECK_NONE, log)) ∧
    ((∃ d, _dhcp2 = some d ∧ d.use_sateful = 1) →
      (maintain hdr _dhcp2 lease log).1 = lease ∧
      ∃ more, (maintain hdr _dhcp2 lease log).2 = log ++ EthCall.checkLease :: more ∧
        EthCall.checkLease ∉ more ∧ ∀ call ∈ more, call.isAddressWrite = false) := by
  constructor
  · rintro (h | ⟨d, h, hd⟩)
    · subst h; rfl
    · subst h; simp only [maintain, if_neg hd]
  · rintro ⟨d, h, hd⟩
    subst h
    simp only [maintain, if_pos hd]
    by_cases h1 : lease = hdr.DHCP_CHECK_NONE
    · rw [if_pos h1]; exact ⟨rfl, [], by simp, by simp, by simp⟩
    · rw [if_neg h1]
      by_cases h2 : lease = hdr.DHCP_CHECK_RENEW_OK
      · rw [if_pos h2]; exact ⟨rfl, [], by simp, by simp, by simp⟩
      · rw [if_neg h2]
        by_cases h3 : lease = hdr.DHCP_CHECK_REBIND_OK
        · rw [if_pos h3]
          exact ⟨rfl, [EthCall.serialPrint, EthCall.getGlobalunicastAddress,
            EthCall.serialPrintln], by simp, by simp, by simp [EthCall.isAddressWrite]⟩
        · rw [if_neg h3]; exact ⟨rfl, [], by simp, by simp, by simp⟩

/-- A stateful lease that was rebound: the answer 4 is handed on, the address is printed
and no register is written. -/
theorem maintain_spec_witness :
    (maintain w6100 (some ⟨1⟩) 4 []).1 = 4 ∧
      ∃ more, (maintain w6100 (some ⟨1⟩) 4 []).2 = [] ++ EthCall.checkLease :: more ∧
        EthCall.checkLease ∉ more ∧ ∀ call ∈ more, call.isAddressWrite = false :=
  (maintain_spec w6100 (some ⟨1⟩) 4 []).2 ⟨⟨1⟩, rfl, rfl⟩


/-- Reading a 16-byte register into a 16-byte buffer leaves the register's bytes. -/
theorem readInto_full (src buf : List Nat) (hs : src.length = 16) (hb : buf.length = 16) :
    readInto src buf = src := by
  unfold readInto
  rw [hs, List.drop_of_length_le (by omega), List.append_nil]

/-- Reading a 4-byte register into a 16-byte buffer and zeroing bytes 4 to 15 leaves the
register's bytes followed by twelve zero bytes. -/
theorem memset_readInto (src buf : List Nat) (hs : src.length = 4) (hb : buf.length = 16) :
    memset (readInto src buf) 4 0 (16 - 4) = src ++ List.replicate 12 0 := by
  unfold memset readInto
  rw [List.take_append_of_le_length (by omega), List.take_of_length_le (by omega),
    List.drop_of_length_le (by simp; omega), List.append_nil]

/-- C2 (amended): on a bound handle whose mode register reads W6100_SnMR_TCPD, with
registers and local array of their declared sizes, `remoteIP` returns the 16 bytes of the
IPv6 destination register unchanged when the extended status register has the TCP6 bit
set, and otherwise the 4 bytes of the destination register followed by 12 zero bytes,
which for destination 192.0.2.1 is C0 00 02 01 followed by 00 x 12. -/
theorem remoteIP_dual (hdr : Header) (chip : W5100) (uninit : List Nat) (c : EthernetClient2)
    (hc : c.sockindex < hdr.MAX_SOCK_NUM)
    (hmode : chip.SnMR c.sockindex = hdr.W6100_SnMR_TCPD)
    (hbuf : uninit.length = 16)
    (h6 : (chip.SnDIP6R c.sockindex).length = 16)
    (h4 : (chip.SnDIPR c.sockindex).length = 4) :
    (chip.SnESR c.sockindex &&& hdr.W6100_SnESR_TCP6 = hdr.W6100_SnESR_TCP6 →
      (remoteIP hdr chip uninit c).1 = chip.SnDIP6R c.sockindex) ∧
    (¬ chip.SnESR c.sockindex &&& hdr.W6100_SnESR_TCP6 = hdr.W6100_SnESR_TCP6 →
      (remoteIP hdr chip uninit c).1 = chip.SnDIPR c.sockindex ++ List.replicate 12 0 ∧
      (chip.SnDIPR c.sockindex = [192, 0, 2, 1] →
        (remoteIP hdr chip uninit c).1 = [192, 0, 2, 1, 0, 0, 0, 0, 0, 0, 0, 0, 0, 0, 0, 0])) := by
  constructor
  · intro hbit
    simp only [remoteIP, IP6Address.ofBytes, ge_iff_le, Nat.not_le.mpr hc, if_false, hmode,
      if_true, hbit]
    exact readInto_full _ _ h6 hbuf
  · intro hbit
    have : (remoteIP hdr chip uninit c).1
        = chip.SnDIPR c.sockindex ++ List.replicate 12 0 := by
      simp only [remoteIP, IP6Address.ofBytes, ge_iff_le, Nat.not_le.mpr hc, if_false, hmode,
      if_true, hbit]
      exact memset_readInto _ _ h4 hbuf
    refine ⟨this, ?_⟩
    intro h
    rw [this, h]
    rfl

/-- The two branches of `remoteIP_dual` on socket 2 in dual mode with the IPv4 status. -/
theorem remoteIP_dual_witness :
    (remoteIP w6100 (sampleChip 13 0) (List.replicate 16 170) ⟨2, 1000⟩).1
      = [192, 0, 2, 1, 0, 0, 0, 0, 0, 0, 0, 0, 0, 0, 0, 0] :=
  ((remoteIP_dual w6100 (sampleChip 13 0) (List.replicate 16 170) ⟨2, 1000⟩ (by decide)
    (by decide) (by decide) (by decide) (by decide)).2 (by decide)).2 (by decide)

/-- C2 as stated fails: in dual mode without the TCP6 bit and with destination register
192.0.2.1, `remoteIP` returns C0 00 02 01 followed by twelve zero bytes, not twelve zero
bytes followed by C0 00 02 01. -/
theorem remoteIP_mapped_counterexample :
    (sampleChip 13 0).SnMR 2 = w6100.W6100_SnMR_TCPD ∧
    ¬ ((sampleChip 13 0).SnESR 2 &&& w6100.W6100_SnESR_TCP6 = w6100.W6100_SnESR_TCP6) ∧
    (sampleChip 13 0).SnDIPR 2 = [192, 0, 2, 1] ∧
    (remoteIP w6100 (sampleChip 13 0) (List.replicate 16 170) ⟨2, 1000⟩).1
      = [192, 0, 2, 1] ++ List.replicate 12 0 ∧
    (remoteIP w6100 (sampleChip 13 0) (List.replicate 16 170) ⟨2, 1000⟩).1
      ≠ List.replicate 12 0 ++ [192, 0, 2, 1] := by
  refine ⟨by decide, by decide, by decide, by decide, by decide⟩

/-- C9: on every bound handle and for every contents of the mode and extended status
registers (the codes for dual mode and TCP-IPv4 being different), `IPVis` returns 4 or 6:
6 when the mode is dual and the extended status has the TCP6 bit set, 4 when the mode is
dual without that bit or the mode is TCP-IPv4, 6 for every other mode.  It reads the same
registers as `remoteIP` does to classify, and it returns 4 exactly when `remoteIP` reads
the 4-byte destination register (and then zero-fills bytes 4 to 15), 6 exactly when
`remoteIP` reads the 16-byte one. -/
theorem IPVis_classification (hdr : Header) (chip : W5100) (uninit : List Nat)
    (c : EthernetClient2) (hc : c.sockindex < hdr.MAX_SOCK_NUM)
    (hne : hdr.W6100_SnMR_TCPD ≠ hdr.W6100_SnMR_TCP4) :
    ((IPVis hdr chip c).1 = 4 ∨ (IPVis hdr chip c).1 = 6) ∧
    (chip.SnMR c.sockindex = hdr.W6100_SnMR_TCPD →
      chip.SnESR c.sockindex &&& hdr.W6100_SnESR_TCP6 = hdr.W6100_SnESR_TCP6 →
      (IPVis hdr chip c).1 = 6) ∧
    (chip.SnMR c.sockindex = hdr.W6100_SnMR_TCPD →
      ¬ chip.SnESR c.sockindex &&& hdr.W6100_SnESR_TCP6 = hdr.W6100_SnESR_TCP6 →
      (IPVis hdr chip c).1 = 4) ∧
    (chip.SnMR c.sockindex = hdr.W6100_SnMR_TCP4 → (IPVis hdr chip c).1 = 4) ∧
    (chip.SnMR c.sockindex ≠ hdr.W6100_SnMR_TCPD →
      chip.SnMR c.sockindex ≠ hdr.W6100_SnMR_TCP4 → (IPVis hdr chip c).1 = 6) ∧
    (remoteIP hdr chip uninit c).2.take 2 = (IPVis hdr chip c).2 ∧
    ((IPVis hdr chip c).1 = 4 ↔
      RegRead.readSnDIPR c.sockindex ∈ (remoteIP hdr chip uninit c).2) ∧
    ((IPVis hdr chip c).1 = 4 →
      (remoteIP hdr chip uninit c).1
        = memset (readInto (chip.SnDIPR c.sockindex) uninit) 4 0 (16 - 4)) ∧
    ((IPVis hdr chip c).1 = 6 ↔
      RegRead.readSnDIP6R c.sockindex ∈ (remoteIP hdr chip uninit c).2) ∧
    ((IPVis hdr chip c).1 = 6 →
      (remoteIP hdr chip uninit c).1 = readInto (chip.SnDIP6R c.sockindex) uninit) := by
  have hc2 : ¬ hdr.MAX_SOCK_NUM ≤ c.sockindex := Nat.not_le.mpr hc
  by_cases hD : chip.SnMR c.sockindex = hdr.W6100_SnMR_TCPD
  · have h4 : ¬ chip.SnMR c.sockindex = hdr.W6100_SnMR_TCP4 := by rw [hD]; exact hne
    by_cases hbit : chip.SnESR c.sockindex &&& hdr.W6100_SnESR_TCP6 = hdr.W6100_SnESR_TCP6
    · simp [IPVis, remoteIP, IP6Address.ofBytes, hc2, hD, hbit, hne]
    · simp [IPVis, remoteIP, IP6Address.ofBytes, hc2, hD, hbit, hne]
  · by_cases h4 : chip.SnMR c.sockindex = hdr.W6100_SnMR_TCP4
    · have hne2 : ¬ hdr.W6100_SnMR_TCP4 = hdr.W6100_SnMR_TCPD := fun e => hne e.symm
      simp [IPVis, remoteIP, IP6Address.ofBytes, hc2, h4, hne2]
    · simp [IPVis, remoteIP, IP6Address.ofBytes, hc2, hD, h4]

/-- The classification on socket 2 in dual mode with the TCP6 bit set: family 6, read from
the 16-byte register. -/
theorem IPVis_classification_witness :
    (IPVis w6100 (sampleChip 13 4) ⟨2, 1000⟩).1 = 6 ∧
    (remoteIP w6100 (sampleChip 13 4) (List.replicate 16 170) ⟨2, 1000⟩).1
      = readInto ((sampleChip 13 4).SnDIP6R 2) (List.replicate 16 170) :=
  have h := IPVis_classification w6100 (sampleChip 13 4) (List.replicate 16 170) ⟨2, 1000⟩
    (by decide) (by decide)
  ⟨h.2.1 (by decide) (by decide), h.2.2.2.2.2.2.2.2.2 (h.2.1 (by decide) (by decide))⟩


/-- On a bound client `stop` is the disconnect, the polling loop and the forced close. -/
theorem stop_eq_loop (hdr : Header) (env : Env) (fuel : Nat) (c : EthernetClient2) (w : World)
    (hc : c.sockindex < hdr.MAX_SOCK_NUM) :
    stop hdr env fuel c w =
      match stopLoop hdr env c (env.clock w.ticks % 4294967296) fuel
          (w.atStopLoop c.sockindex) with
      | none => none
      | some (true, w2) => some ({ c with sockindex := hdr.MAX_SOCK_NUM }, w2)
      | some (false, w2) =>
        some ({ c with sockindex := hdr.MAX_SOCK_NUM }, socketClose c.sockindex w2) := by
  simp only [stop, ge_iff_le, Nat.not_le.mpr hc, if_false, socketDisconnect, millis,
    World.atStopLoop]

/-- A pass of `stop` that sees CLOSED after `j` passes that went on releases the handle. -/
theorem stop_closed_at (hdr : Header) (env : Env) (c : EthernetClient2) (w : World) (j : Nat)
    (hc : c.sockindex < hdr.MAX_SOCK_NUM)
    (hgo : ∀ i, i < j → pollStatus env w i ≠ hdr.SnSR.CLOSED ∧ elapsedAt env w i < c._timeout)
    (hst : pollStatus env w j = hdr.SnSR.CLOSED) (f : Nat) :
    stop hdr env (f + 1 + j) c w =
      some ({ c with sockindex := hdr.MAX_SOCK_NUM }, w.afterStop c.sockindex (j + 1) false) := by
  rw [stop_eq_loop hdr env _ c w hc,
    stopLoop_passes hdr env c _ j (f + 1) _ (by
      intro i hi
      have := hgo i hi
      simpa [World.atStopLoop, pollStatus, elapsedAt, Nat.add_assoc] using this)]
  have hw : (socketStatus env c.sockindex ((w.atStopLoop c.sockindex).afterPasses c.sockindex j)).2
      = w.afterStop c.sockindex (j + 1) false := by
    simp [socketStatus, World.atStopLoop, World.afterPasses, World.afterStop,
      List.replicate_succ', Nat.add_assoc]
    omega
  have hs : (socketStatus env c.sockindex ((w.atStopLoop c.sockindex).afterPasses c.sockindex j)).1
      = pollStatus env w j := by
    simp [socketStatus, World.atStopLoop, World.afterPasses, pollStatus]
  simp only [stopLoop]
  rw [hw, hs, if_pos hst]

/-- A pass of `stop` that sees another status and the timeout after `j` passes that went
on leaves the loop: the socket is closed by force and the handle released. -/
theorem stop_forced_at (hdr : Header) (env : Env) (c : EthernetClient2) (w : World) (j : Nat)
    (hc : c.sockindex < hdr.MAX_SOCK_NUM)
    (hgo : ∀ i, i < j → pollStatus env w i ≠ hdr.SnSR.CLOSED ∧ elapsedAt env w i < c._timeout)
    (hst : pollStatus env w j ≠ hdr.SnSR.CLOSED) (hout : ¬ elapsedAt env w j < c._timeout)
    (f : Nat) :
    stop hdr env (f + 1 + j) c w =
      some ({ c with sockindex := hdr.MAX_SOCK_NUM }, w.afterStop c.sockindex (j + 1) true) := by
  rw [stop_eq_loop hdr env _ c w hc,
    stopLoop_passes hdr env c _ j (f + 1) _ (by
      intro i hi
      have := hgo i hi
      simpa [World.atStopLoop, pollStatus, elapsedAt, Nat.add_assoc] using this)]
  have hs : (socketStatus env c.sockindex ((w.atStopLoop c.sockindex).afterPasses c.sockindex j)).1
      = pollStatus env w j := by
    simp [socketStatus, World.atStopLoop, World.afterPasses, pollStatus]
  have he : (millis env (delay (socketStatus env c.sockindex
      ((w.atStopLoop c.sockindex).afterPasses c.sockindex j)).2)).1
      = env.clock (w.ticks + 1 + j) % 4294967296 := by
    simp [socketStatus, millis, delay, World.atStopLoop, World.afterPasses]
  have hw : socketClose c.sockindex (millis env (delay (socketStatus env c.sockindex
      ((w.atStopLoop c.sockindex).afterPasses c.sockindex j)).2)).2
      = w.afterStop c.sockindex (j + 1) true := by
    simp [socketStatus, millis, delay, socketClose, World.atStopLoop, World.afterPasses,
      World.afterStop, List.replicate_succ', Nat.add_assoc]
    omega
  unfold elapsedAt at hout
  simp only [stopLoop]
  rw [hs, he]
  simp only [hst, if_false, hout]
  rw [hw]

/-- Every way the loop of `stop` ends: after some passes that went on, a pass saw CLOSED
(`true`) or saw another status and the timeout (`false`). -/
theorem stopLoop_some (hdr : Header) (env : Env) (c : EthernetClient2) (start : Nat) :
    ∀ (fuel : Nat) (w : World) (b : Bool) (w2 : World),
    stopLoop hdr env c start fuel w = some (b, w2) →
    ∃ j, j < fuel ∧
      (∀ i, i < j → env.status (w.polls + i) ≠ hdr.SnSR.CLOSED ∧
        elapsed (env.clock (w.ticks + i) % 4294967296) start < c._timeout) ∧
      ((b = true ∧ env.status (w.polls + j) = hdr.SnSR.CLOSED) ∨
        (b = false ∧ env.status (w.polls + j) ≠ hdr.SnSR.CLOSED ∧
          ¬ elapsed (env.clock (w.ticks + j) % 4294967296) start < c._timeout)) := by
  intro fuel
  induction fuel with
  | zero => intro w b w2 h; simp [stopLoop] at h
  | succ fuel ih =>
    intro w b w2 h
    simp only [stopLoop, socketStatus, millis, delay] at h
    by_cases h1 : env.status w.polls = hdr.SnSR.CLOSED
    · rw [if_pos h1] at h
      simp only [Option.some.injEq, Prod.mk.injEq] at h
      exact ⟨0, Nat.succ_pos _, by simp, Or.inl ⟨h.1.symm, by simpa using h1⟩⟩
    · rw [if_neg h1] at h
      by_cases h2 : elapsed (env.clock w.ticks % 4294967296) start < c._timeout
      · rw [if_pos h2] at h
        obtain ⟨j, hj, hgo, hend⟩ := ih _ b w2 h
        refine ⟨j + 1, Nat.succ_lt_succ hj, ?_, ?_⟩
        · intro i hi
          cases i with
          | zero => exact ⟨by simpa using h1, by simpa using h2⟩
          | succ i =>
            have := hgo i (by omega)
            simp only at this
            rw [show w.polls + (i + 1) = w.polls + 1 + i by omega,
              show w.ticks + (i + 1) = w.ticks + 1 + i by omega]
            exact this
        · simp only at hend
          rw [show w.polls + (j + 1) = w.polls + 1 + j by omega,
            show w.ticks + (j + 1) = w.ticks + 1 + j by omega]
          exact hend
      · rw [if_neg h2] at h
        simp only [Option.some.injEq, Prod.mk.injEq] at h
        exact ⟨0, Nat.succ_pos _, by simp,
          Or.inr ⟨h.1.symm, by simpa using h1, by simpa using h2⟩⟩


/-- On an unbound client `stop` returns at once and changes nothing. -/
theorem stop_unbound (hdr : Header) (env : Env) (fuel : Nat) (c : EthernetClient2) (w : World)
    (hc : hdr.MAX_SOCK_NUM ≤ c.sockindex) : stop hdr env fuel c w = some (c, w) := by
  simp only [stop, ge_iff_le, hc, if_true]

/-- A `stop` that returns on a bound client ended in one of the two ways of
`stop_closed_at` and `stop_forced_at`. -/
theorem stop_some (hdr : Header) (env : Env) (fuel : Nat) (c c2 : EthernetClient2)
    (w w2 : World) (hc : c.sockindex < hdr.MAX_SOCK_NUM)
    (hret : stop hdr env fuel c w = some (c2, w2)) :
    c2 = { c with sockindex := hdr.MAX_SOCK_NUM } ∧
    ∃ j, j < fuel ∧
      (∀ i, i < j → pollStatus env w i ≠ hdr.SnSR.CLOSED ∧ elapsedAt env w i < c._timeout) ∧
      ((pollStatus env w j = hdr.SnSR.CLOSED ∧ w2 = w.afterStop c.sockindex (j + 1) false) ∨
        (pollStatus env w j ≠ hdr.SnSR.CLOSED ∧ ¬ elapsedAt env w j < c._timeout ∧
          w2 = w.afterStop c.sockindex (j + 1) true)) := by
  have hloop := stop_eq_loop hdr env fuel c w hc
  cases hl : stopLoop hdr env c (env.clock w.ticks % 4294967296) fuel
      (w.atStopLoop c.sockindex) with
  | none => rw [hl] at hloop; rw [hloop] at hret; simp at hret
  | some res =>
    obtain ⟨b, w3⟩ := res
    obtain ⟨j, hj, hgo, hend⟩ := stopLoop_some hdr env c _ fuel _ b w3 hl
    have hgo2 : ∀ i, i < j →
        pollStatus env w i ≠ hdr.SnSR.CLOSED ∧ elapsedAt env w i < c._timeout := by
      intro i hi
      have := hgo i hi
      simpa [World.atStopLoop, pollStatus, elapsedAt, Nat.add_assoc] using this
    have hfe : fuel - (j + 1) + 1 + j = fuel := by omega
    rcases hend with ⟨-, hst⟩ | ⟨-, hst, hout⟩
    · have hst2 : pollStatus env w j = hdr.SnSR.CLOSED := by
        simpa [World.atStopLoop, pollStatus] using hst
      have := stop_closed_at hdr env c w j hc hgo2 hst2 (fuel - (j + 1))
      rw [hfe, hret] at this
      simp only [Option.some.injEq, Prod.mk.injEq] at this
      exact ⟨this.1, j, hj, hgo2, Or.inl ⟨hst2, this.2⟩⟩
    · have hst2 : pollStatus env w j ≠ hdr.SnSR.CLOSED := by
        simpa [World.atStopLoop, pollStatus] using hst
      have hout2 : ¬ elapsedAt env w j < c._timeout := by
        simpa [World.atStopLoop, elapsedAt, Nat.add_assoc] using hout
      have := stop_forced_at hdr env c w j hc hgo2 hst2 hout2 (fuel - (j + 1))
      rw [hfe, hret] at this
      simp only [Option.some.injEq, Prod.mk.injEq] at this
      exact ⟨this.1, j, hj, hgo2, Or.inr ⟨hst2, hout2, this.2⟩⟩

/-- C5: for every client state with `sockindex <= MAX_SOCK_NUM` and all polled statuses and
clock readings:
(1) on an unbound client `stop()` returns at once, issues no call and changes nothing;
(2) whenever `stop()` returns, the client is unbound (`sockindex == MAX_SOCK_NUM`),
`connected()` returns 0 without touching the transport, a second `stop()` changes nothing,
and on a bound client the calls issued are one `socketDisconnect`, n >= 1 status polls and
at most one `socketClose`, last;
(3) on a bound client, when pass j observes CLOSED and the passes before it saw neither
CLOSED nor the timeout, `stop()` returns (fuel > j) having issued the disconnect and j + 1
status polls, and no `socketClose`;
(4) when instead pass j is the first to see the timeout, with no CLOSED up to it, `stop()`
returns having issued the disconnect, j + 1 status polls and exactly one `socketClose`. -/
theorem stop_spec (hdr : Header) (env : Env) (c : EthernetClient2) (w : World)
    (hwf : c.sockindex ≤ hdr.MAX_SOCK_NUM) :
    (c.sockindex = hdr.MAX_SOCK_NUM → ∀ fuel, stop hdr env fuel c w = some (c, w)) ∧
    (∀ fuel c2 w2, stop hdr env fuel c w = some (c2, w2) →
      c2.sockindex = hdr.MAX_SOCK_NUM ∧ connected hdr env c2 w2 = (0, w2) ∧
      (∀ fuel2, stop hdr env fuel2 c2 w2 = some (c2, w2)) ∧
      (c.sockindex < hdr.MAX_SOCK_NUM → ∃ n, 1 ≤ n ∧ w2.polls = w.polls + n ∧
        (w2.trace = w.trace ++ [Call.socketDisconnect c.sockindex]
            ++ List.replicate n (Call.socketStatus c.sockindex) ∨
         w2.trace = w.trace ++ [Call.socketDisconnect c.sockindex]
            ++ List.replicate n (Call.socketStatus c.sockindex)
            ++ [Call.socketClose c.sockindex]))) ∧
    (c.sockindex < hdr.MAX_SOCK_NUM → ∀ j,
      (∀ i, i < j → pollStatus env w i ≠ hdr.SnSR.CLOSED ∧ elapsedAt env w i < c._timeout) →
      pollStatus env w j = hdr.SnSR.CLOSED → ∀ fuel, j < fuel →
      ∃ w2, stop hdr env fuel c w = some ({ c with sockindex := hdr.MAX_SOCK_NUM }, w2) ∧
        w2.trace = w.trace ++ [Call.socketDisconnect c.sockindex]
          ++ List.replicate (j + 1) (Call.socketStatus c.sockindex)) ∧
    (c.sockindex < hdr.MAX_SOCK_NUM → ∀ j,
      (∀ i, i < j → pollStatus env w i ≠ hdr.SnSR.CLOSED ∧ elapsedAt env w i < c._timeout) →
      pollStatus env w j ≠ hdr.SnSR.CLOSED → ¬ elapsedAt env w j < c._timeout →
      ∀ fuel, j < fuel →
      ∃ w2, stop hdr env fuel c w = some ({ c with sockindex := hdr.MAX_SOCK_NUM }, w2) ∧
        w2.trace = w.trace ++ [Call.socketDisconnect c.sockindex]
          ++ List.replicate (j + 1) (Call.socketStatus c.sockindex)
          ++ [Call.socketClose c.sockindex]) := by
  refine ⟨?_, ?_, ?_, ?_⟩
  · intro hc fuel
    exact stop_unbound hdr env fuel c w (Nat.le_of_eq hc.symm)
  · intro fuel c2 w2 hret
    have hun : c2.sockindex = hdr.MAX_SOCK_NUM := by
      by_cases hc : c.sockindex < hdr.MAX_SOCK_NUM
      · rw [(stop_some hdr env fuel c c2 w w2 hc hret).1]
      · rw [stop_unbound hdr env fuel c w (Nat.le_of_not_lt hc)] at hret
        simp only [Option.some.injEq, Prod.mk.injEq] at hret
        rw [← hret.1]; omega
    refine ⟨hun, ?_, ?_, ?_⟩
    · simp only [connected, ge_iff_le, Nat.le_of_eq hun.symm, if_true]
    · intro fuel2
      exact stop_unbound hdr env fuel2 c2 w2 (Nat.le_of_eq hun.symm)
    · intro hc
      obtain ⟨-, j, -, -, hend⟩ := stop_some hdr env fuel c c2 w w2 hc hret
      refine ⟨j + 1, by omega, ?_, ?_⟩
      · rcases hend with ⟨-, h⟩ | ⟨-, -, h⟩ <;> rw [h] <;> simp [World.afterStop]
      · rcases hend with ⟨-, h⟩ | ⟨-, -, h⟩
        · left; rw [h]; simp [World.afterStop]
        · right; rw [h]; simp [World.afterStop]
  · intro hc j hgo hst fuel hfuel
    have := stop_closed_at hdr env c w j hc hgo hst (fuel - (j + 1))
    rw [show fuel - (j + 1) + 1 + j = fuel by omega] at this
    exact ⟨_, this, by simp [World.afterStop]⟩
  · intro hc j hgo hst hout fuel hfuel
    have := stop_forced_at hdr env c w j hc hgo hst hout (fuel - (j + 1))
    rw [show fuel - (j + 1) + 1 + j = fuel by omega] at this
    exact ⟨_, this, by simp [World.afterStop]⟩

/-- The two ways `stop` releases socket 2 with a timeout of 3 ms: the peer's CLOSED shows
up at the third poll, or never. -/
theorem stop_spec_witness :
    (∃ w2, stop w6100 (peerAnswering 2 0) 5 ⟨2, 3⟩ World.init
        = some ({ (⟨2, 3⟩ : EthernetClient2) with sockindex := w6100.MAX_SOCK_NUM }, w2) ∧
      w2.trace = World.init.trace ++ [Call.socketDisconnect 2]
        ++ List.replicate (2 + 1) (Call.socketStatus 2)) ∧
    (∃ w2, stop w6100 silentPeer 5 ⟨2, 3⟩ World.init
        = some ({ (⟨2, 3⟩ : EthernetClient2) with sockindex := w6100.MAX_SOCK_NUM }, w2) ∧
      w2.trace = World.init.trace ++ [Call.socketDisconnect 2]
        ++ List.replicate (2 + 1) (Call.socketStatus 2) ++ [Call.socketClose 2]) :=
  ⟨(stop_spec w6100 (peerAnswering 2 0) ⟨2, 3⟩ World.init (by decide)).2.2.1 (by decide) 2
      (by decide) (by decide) 5 (by decide),
    (stop_spec w6100 silentPeer ⟨2, 3⟩ World.init (by decide)).2.2.2 (by decide) 2
      (by decide) (by decide) (by decide) 5 (by decide)⟩

end Ethernet
